import Mathlib

set_option maxRecDepth 2000

/-!
# Verification of the River streaming engine

A shallow embedding, in Lean 4, of the core of the `river` repository
(python packages `river-core`, `river-provider-redis`,
`river-adapter-fastapi`), together with theorems settling the frozen
claims about its specification.

The embedding covers:

* the resumption-token codec (`river_core/helpers.py`), including models
  of the Python stdlib collaborators it calls: `json.dumps` /
  `json.loads` (restricted to the string-valued objects the codec
  produces and consumes), `base64.b64encode` / `b64decode`, and UTF-8
  encoding/decoding;
* the item model (`river_core/types.py`);
* the dual-write helper (`RedisStreamHelper`) as an action trace;
* the runner harness of both providers
  (`DefaultRiverProvider.start_stream`,
  `RedisRiverProvider.start_stream`) as a deterministic cooperative
  machine over the asyncio schedule: `await queue.put` on an unbounded
  queue never yields control, while an `await` on real I/O
  (`redis.xadd`, `asyncio.sleep`) suspends the producer task and lets
  the drain loop run;
* the resume reader (`RedisRiverProvider.resume_stream`) with its
  blocking-read loop, batch cap 10 and iteration cap 1000;
* the caller façade (`StreamCaller.start`) with its abort check, and
  the FastAPI `post_handler`, modelling the laziness of Python async
  generators: calling `StreamCaller.start` executes none of its body.

Python strings are modelled as lists of code points (`Str := List Nat`,
each `< 0x110000`, lone surrogates allowed as in CPython); byte strings
as lists of naturals `< 256`.
-/

/-- A Python string: its list of code points. -/
abbrev Str := List Nat

/-- Code points of a Lean string literal, used to write concrete
Python strings in the model. -/
def strCp (s : String) : Str := s.data.map (fun c => c.toNat)

/-! ## Base64 (model of Python `base64.b64encode` / `b64decode`) -/

/-- The standard base-64 alphabet used by `base64.b64encode`
(`A`–`Z`, `a`–`z`, `0`–`9`, `+`, `/`): value to character code. -/
def b64char (n : Nat) : Nat :=
  if n < 26 then 65 + n
  else if n < 52 then 97 + (n - 26)
  else if n < 62 then 48 + (n - 52)
  else if n = 62 then 43
  else 47

/-- Inverse of `b64char`: character code to 6-bit value. -/
def b64val (c : Nat) : Option Nat :=
  if 65 ≤ c ∧ c ≤ 90 then some (c - 65)
  else if 97 ≤ c ∧ c ≤ 122 then some (26 + (c - 97))
  else if 48 ≤ c ∧ c ≤ 57 then some (52 + (c - 48))
  else if c = 43 then some 62
  else if c = 47 then some 63
  else none

/-- Is `c` a character of the standard base-64 alphabet? -/
def isB64Char (c : Nat) : Bool := (b64val c).isSome

/-- Model of `base64.b64encode` on a byte list: standard alphabet,
`=`-padded.  Note: the *standard* alphabet (with `+` and `/`), not the
URL-safe one — `helpers.py` calls `b64encode`, not `urlsafe_b64encode`. -/
def b64encode : List Nat → List Nat
  | [] => []
  | [a] => [b64char (a / 4), b64char (a % 4 * 16), 61, 61]
  | [a, b] => [b64char (a / 4), b64char (a % 4 * 16 + b / 16), b64char (b % 16 * 4), 61]
  | a :: b :: c :: rest =>
      b64char (a / 4) :: b64char (a % 4 * 16 + b / 16) ::
      b64char (b % 16 * 4 + c / 64) :: b64char (c % 64) :: b64encode rest

/-- Decode base-64 groups of four characters into bytes; `=` padding is
only accepted at the very end. -/
def b64groups : List Nat → Option (List Nat)
  | [] => some []
  | c1 :: c2 :: c3 :: c4 :: rest =>
      match b64val c1, b64val c2 with
      | some v1, some v2 =>
          if c3 = 61 ∧ c4 = 61 ∧ rest = [] then
            some [v1 * 4 + v2 / 16]
          else if c4 = 61 ∧ rest = [] then
            match b64val c3 with
            | some v3 => some [v1 * 4 + v2 / 16, v2 % 16 * 16 + v3 / 4]
            | none => none
          else
            match b64val c3, b64val c4 with
            | some v3, some v4 =>
                match b64groups rest with
                | some bs =>
                    some ((v1 * 4 + v2 / 16) :: (v2 % 16 * 16 + v3 / 4) ::
                          (v3 % 4 * 64 + v4) :: bs)
                | none => none
            | _, _ => none
      | _, _ => none
  | _ => none

/-- Model of Python `base64.b64decode` with `validate=False` (the form
used in `helpers.py` and `callers.py`): characters outside the alphabet
and `=` are discarded, then the remainder must consist of whole
four-character groups (otherwise `binascii.Error`, surfaced as a decode
failure). -/
def b64decode (s : List Nat) : Option (List Nat) :=
  let cleaned := s.filter (fun c => isB64Char c || c == 61)
  if cleaned.length % 4 = 0 then b64groups cleaned else none

theorem b64char_lt (n : Nat) : b64char n < 128 := by
  unfold b64char; split_ifs <;> omega

theorem b64val_b64char (n : Nat) (h : n < 64) : b64val (b64char n) = some n := by
  unfold b64char b64val
  split_ifs <;> first | (simp only [Option.some.injEq]; omega) | (exfalso; omega)

theorem isB64Char_b64char (n : Nat) (h : n < 64) : isB64Char (b64char n) = true := by
  simp [isB64Char, b64val_b64char n h]

theorem b64char_ne_61 (n : Nat) : b64char n ≠ 61 := by
  unfold b64char; split_ifs <;> omega

/-- Every byte < 256 decomposes for the encoder. -/
theorem b64_quads_lt (a b c : Nat) (ha : a < 256) (hb : b < 256) (hc : c < 256) :
    a / 4 < 64 ∧ a % 4 * 16 + b / 16 < 64 ∧ b % 16 * 4 + c / 64 < 64 ∧ c % 64 < 64 := by
  omega

theorem b64encode_chars (bs : List Nat) (hbs : ∀ b ∈ bs, b < 256) :
    ∀ c ∈ b64encode bs, (isB64Char c = true) ∨ c = 61 := by
  induction bs using b64encode.induct with
  | case1 => intro c hc; simp [b64encode] at hc
  | case2 a =>
      intro c hc
      have ha : a < 256 := hbs a (by simp)
      simp only [b64encode, List.mem_cons, List.not_mem_nil, or_false] at hc
      rcases hc with h | h | h | h <;> subst h
      · exact Or.inl (isB64Char_b64char _ (by omega))
      · exact Or.inl (isB64Char_b64char _ (by omega))
      · exact Or.inr rfl
      · exact Or.inr rfl
  | case3 a b =>
      intro c hc
      have ha : a < 256 := hbs a (by simp)
      have hb : b < 256 := hbs b (by simp)
      simp only [b64encode, List.mem_cons, List.not_mem_nil, or_false] at hc
      rcases hc with h | h | h | h <;> subst h
      · exact Or.inl (isB64Char_b64char _ (by omega))
      · exact Or.inl (isB64Char_b64char _ (by omega))
      · exact Or.inl (isB64Char_b64char _ (by omega))
      · exact Or.inr rfl
  | case4 a b c rest ih =>
      intro x hx
      have ha : a < 256 := hbs a (by simp)
      have hb : b < 256 := hbs b (by simp)
      have hc : c < 256 := hbs c (by simp)
      simp only [b64encode, List.mem_cons] at hx
      rcases hx with h | h | h | h | h
      · exact h ▸ Or.inl (isB64Char_b64char _ (by omega))
      · exact h ▸ Or.inl (isB64Char_b64char _ (by omega))
      · exact h ▸ Or.inl (isB64Char_b64char _ (by omega))
      · exact h ▸ Or.inl (isB64Char_b64char _ (by omega))
      · exact ih (fun y hy => hbs y (by simp [hy])) x h

theorem b64encode_filter (bs : List Nat) (hbs : ∀ b ∈ bs, b < 256) :
    (b64encode bs).filter (fun c => isB64Char c || c == 61) = b64encode bs := by
  apply List.filter_eq_self.mpr
  intro c hc
  rcases b64encode_chars bs hbs c hc with h | h
  · simp [h]
  · simp [h]

theorem b64encode_length (bs : List Nat) : (b64encode bs).length % 4 = 0 := by
  induction bs using b64encode.induct with
  | case1 => simp [b64encode]
  | case2 a => simp [b64encode]
  | case3 a b => simp [b64encode]
  | case4 a b c rest ih => simp [b64encode]; omega

theorem b64groups_encode (bs : List Nat) (hbs : ∀ b ∈ bs, b < 256) :
    b64groups (b64encode bs) = some bs := by
  induction bs using b64encode.induct with
  | case1 => simp [b64encode, b64groups]
  | case2 a =>
      have ha : a < 256 := hbs a (by simp)
      simp only [b64encode, b64groups]
      rw [b64val_b64char _ (by omega), b64val_b64char _ (by omega)]
      simp only [and_self, if_true, ite_true, if_pos]
      simp only [Option.some.injEq, List.cons.injEq, and_true]
      omega
  | case3 a b =>
      have ha : a < 256 := hbs a (by simp)
      have hb : b < 256 := hbs b (by simp)
      simp only [b64encode, b64groups]
      rw [b64val_b64char _ (by omega), b64val_b64char _ (by omega),
          b64val_b64char (b % 16 * 4) (by omega)]
      have h3 : b64char (b % 16 * 4) ≠ 61 := b64char_ne_61 _
      simp only [h3, false_and, if_false, and_self, if_true, ite_true, ite_false]
      simp only [Option.some.injEq, List.cons.injEq, and_true]
      omega
  | case4 a b c rest ih =>
      have ha : a < 256 := hbs a (by simp)
      have hb : b < 256 := hbs b (by simp)
      have hc : c < 256 := hbs c (by simp)
      have hrest : ∀ y ∈ rest, y < 256 := fun y hy => hbs y (by simp [hy])
      have hlen : b64encode rest = [] ∨ b64encode rest ≠ [] := em _
      simp only [b64encode, b64groups]
      rw [b64val_b64char _ (by omega), b64val_b64char _ (by omega),
          b64val_b64char (b % 16 * 4 + c / 64) (by omega),
          b64val_b64char (c % 64) (by omega)]
      have h3 : b64char (b % 16 * 4 + c / 64) ≠ 61 := b64char_ne_61 _
      have h4 : b64char (c % 64) ≠ 61 := b64char_ne_61 _
      simp only [h3, h4, false_and, and_false, if_false, ite_false]
      rw [ih hrest]
      simp only [Option.some.injEq, List.cons.injEq, and_true]
      refine ⟨by omega, by omega, by omega⟩

/-- `b64decode ∘ b64encode = id` on byte lists. -/
theorem b64decode_b64encode (bs : List Nat) (hbs : ∀ b ∈ bs, b < 256) :
    b64decode (b64encode bs) = some bs := by
  unfold b64decode
  rw [b64encode_filter bs hbs]
  simp only [b64encode_length bs, if_pos rfl]
  exact b64groups_encode bs hbs

/-! ## JSON string escaping (model of `json.dumps` with `ensure_ascii=True`)

CPython's `json.dumps` with the default `ensure_ascii=True` escapes `"`
and `\`, uses the short escapes for `\b \t \n \f \r`, leaves the other
printable ASCII characters (0x20–0x7E) literal, and escapes everything
else as `\uXXXX` (lowercase hex), emitting a surrogate pair for code
points above 0xFFFF.  Lone surrogate code points are escaped
individually.  The output is therefore pure ASCII. -/

/-- Lowercase hex digit character for a value < 16 (as `json.dumps` emits). -/
def toHexDigit (n : Nat) : Nat := if n < 10 then 48 + n else 87 + n

/-- Parse one hex digit character (accepting both cases, as `json.loads`). -/
def fromHexDigit (c : Nat) : Option Nat :=
  if 48 ≤ c ∧ c ≤ 57 then some (c - 48)
  else if 97 ≤ c ∧ c ≤ 102 then some (c - 87)
  else if 65 ≤ c ∧ c ≤ 70 then some (c - 55)
  else none

/-- Four lowercase hex digits of a value < 0x10000. -/
def hex4 (c : Nat) : List Nat :=
  [toHexDigit (c / 4096 % 16), toHexDigit (c / 256 % 16),
   toHexDigit (c / 16 % 16), toHexDigit (c % 16)]

/-- Is `c` a high (leading) surrogate code point? -/
def isHiSurr (c : Nat) : Bool := decide (55296 ≤ c ∧ c ≤ 56319)

/-- Is `c` a low (trailing) surrogate code point? -/
def isLoSurr (c : Nat) : Bool := decide (56320 ≤ c ∧ c ≤ 57343)

/-- Escape one code point as `json.dumps(…, ensure_ascii=True)` does. -/
def escChar (c : Nat) : List Nat :=
  if c = 34 then [92, 34]
  else if c = 92 then [92, 92]
  else if c = 8 then [92, 98]
  else if c = 9 then [92, 116]
  else if c = 10 then [92, 110]
  else if c = 12 then [92, 102]
  else if c = 13 then [92, 114]
  else if 32 ≤ c ∧ c ≤ 126 then [c]
  else if c < 65536 then 92 :: 117 :: hex4 c
  else 92 :: 117 :: hex4 (55296 + (c - 65536) / 1024) ++
       (92 :: 117 :: hex4 (56320 + (c - 65536) % 1024))

/-- Escape a whole string. -/
def escString : Str → List Nat
  | [] => []
  | c :: s => escChar c ++ escString s

/-- Code for a two-character escape `\e` (the value it denotes), as
`json.loads` accepts: `\" \\ \/ \b \f \n \r \t`. -/
def escCode (e : Nat) : Option Nat :=
  if e = 34 then some 34
  else if e = 92 then some 92
  else if e = 47 then some 47
  else if e = 98 then some 8
  else if e = 102 then some 12
  else if e = 110 then some 10
  else if e = 114 then some 13
  else if e = 116 then some 9
  else none

/-- Prepend a code point to a string-parse result. -/
def consRes (c : Nat) : Option (Str × List Nat) → Option (Str × List Nat)
  | some (s, r) => some (c :: s, r)
  | none => none

/-- The scanner's lookahead after a high-surrogate `\uXXXX` escape:
does the remaining input start with a `\uXXXX` escape whose value is a
low surrogate?  If so return that value and the input past it
(CPython: `s[end:end + 2] == '\\u'` followed by `_decode_uXXXX`). -/
def parseLookaheadLo (r : List Nat) : Option (Nat × List Nat) :=
  if r.take 2 = [92, 117] then
    match (r.get? 2).bind fromHexDigit, (r.get? 3).bind fromHexDigit,
          (r.get? 4).bind fromHexDigit, (r.get? 5).bind fromHexDigit with
    | some y1, some y2, some y3, some y4 =>
      let u2 := y1 * 4096 + y2 * 256 + y3 * 16 + y4
      if isLoSurr u2 then some (u2, r.drop 6) else none
    | _, _, _, _ => none
  else none

theorem parseLookaheadLo_length {r : List Nat} {p : Nat × List Nat}
    (h : parseLookaheadLo r = some p) : p.2.length + 6 ≤ r.length := by
  unfold parseLookaheadLo at h
  split at h
  · split at h
    · rename_i y1 y2 y3 y4 hy1 hy2 hy3 hy4
      have h5 : (r.get? 5).isSome := by
        cases hg : r.get? 5 with
        | none => rw [hg] at hy4; simp [Option.bind] at hy4
        | some v => simp
      have hlen : 6 ≤ r.length := by
        by_contra hc
        rw [List.get?_eq_none.mpr (by omega)] at h5
        simp at h5
      simp only [] at h
      split at h
      · cases h
        simp [List.length_drop]
        omega
      · cases h
    · cases h
  · cases h

/-- Model of CPython's `json` string scanner (`scanstring`, strict mode),
applied after the opening quote: consumes characters up to the closing
quote, processing backslash escapes; a `\uXXXX` escape in the high
surrogate range followed immediately by a `\uXXXX` in the low surrogate
range is recombined into a single supplementary code point (exactly as
`json.loads` does); a control character below 0x20 is an error. -/
def parseJsonStringBody : List Nat → Option (Str × List Nat)
  | [] => none
  | c :: rest =>
    if c = 34 then some ([], rest)
    else if c = 92 then
      match rest with
      | 117 :: h1 :: h2 :: h3 :: h4 :: rest3 =>
        match fromHexDigit h1, fromHexDigit h2, fromHexDigit h3, fromHexDigit h4 with
        | some x1, some x2, some x3, some x4 =>
          let u := x1 * 4096 + x2 * 256 + x3 * 16 + x4
          if isHiSurr u then
            match hlk : parseLookaheadLo rest3 with
            | some (u2, r4) =>
                consRes (65536 + (u - 55296) * 1024 + (u2 - 56320))
                  (parseJsonStringBody r4)
            | none => consRes u (parseJsonStringBody rest3)
          else consRes u (parseJsonStringBody rest3)
        | _, _, _, _ => none
      | e :: rest2 =>
        match escCode e with
        | some d => consRes d (parseJsonStringBody rest2)
        | none => none
      | [] => none
    else if 32 ≤ c then consRes c (parseJsonStringBody rest)
    else none
termination_by l => l.length
decreasing_by
  all_goals simp only [List.length_cons]
  all_goals try omega
  all_goals
    rename_i hlk
  all_goals
    have hl := parseLookaheadLo_length hlk
  all_goals simp only [List.length_cons] at hl ⊢
  all_goals omega

/-! ## JSON object parsing (model of `json.loads`, restricted)

`json.loads` is modelled only on the grammar the token codec can meet:
a single object whose values are strings (the only shape
`encode_resumption_token` produces).  Whitespace is the JSON whitespace
set.  The result is the object's key/value list in source order (a
Python `dict` preserves insertion order; duplicate keys do not occur in
the inputs considered). -/

/-- JSON whitespace as accepted by `json.loads`. -/
def isWsChar (c : Nat) : Bool := c == 32 || c == 9 || c == 10 || c == 13

/-- Skip leading whitespace. -/
def skipWs (l : List Nat) : List Nat := l.dropWhile isWsChar

/-- Parse a quoted string token, with leading whitespace. -/
def parseStrTok (l : List Nat) : Option (Str × List Nat) :=
  match skipWs l with
  | 34 :: r => parseJsonStringBody r
  | _ => none

/-- Parse one `"key": "value"` member. -/
def parsePairJ (l : List Nat) : Option ((Str × Str) × List Nat) :=
  match parseStrTok l with
  | some (k, r1) =>
    match skipWs r1 with
    | 58 :: r2 =>
      match parseStrTok r2 with
      | some (v, r3) => some ((k, v), r3)
      | none => none
    | _ => none
  | none => none

/-- Parse the members of a non-empty object, after the opening brace. -/
def parseMembers : Nat → List Nat → Option (List (Str × Str) × List Nat)
  | 0, _ => none
  | fuel + 1, l =>
    match parsePairJ l with
    | some (kv, r) =>
      match skipWs r with
      | 44 :: r2 =>
        match parseMembers fuel r2 with
        | some (ps, r3) => some (kv :: ps, r3)
        | none => none
      | 125 :: r2 => some ([kv], r2)
      | _ => none
    | none => none

/-- Parse a whole document that must be a single object (as
`json.loads` requires the full input to be one JSON value). -/
def parseObjTop (l : List Nat) : Option (List (Str × Str)) :=
  match skipWs l with
  | 123 :: r =>
    match skipWs r with
    | 125 :: r2 => if (skipWs r2).isEmpty then some [] else none
    | _ =>
      match parseMembers (l.length + 1) r with
      | some (ps, r3) => if (skipWs r3).isEmpty then some ps else none
      | none => none
  | _ => none

/-! ## UTF-8 (model of `str.encode("utf-8")` / `bytes.decode("utf-8")`) -/

/-- UTF-8 encoding of one code point. -/
def utf8EncodeChar (c : Nat) : List Nat :=
  if c < 128 then [c]
  else if c < 2048 then [192 + c / 64, 128 + c % 64]
  else if c < 65536 then [224 + c / 4096, 128 + c / 64 % 64, 128 + c % 64]
  else [240 + c / 262144, 128 + c / 4096 % 64, 128 + c / 64 % 64, 128 + c % 64]

/-- UTF-8 encoding of a string. -/
def utf8Encode : Str → List Nat
  | [] => []
  | c :: s => utf8EncodeChar c ++ utf8Encode s

/-- Valid second byte of a three-byte sequence, given the first byte
(RFC 3629 table: excludes overlongs and surrogates). -/
def utf8SecondOk3 (b1 b2 : Nat) : Bool :=
  if b1 = 224 then decide (160 ≤ b2 ∧ b2 ≤ 191)
  else if b1 = 237 then decide (128 ≤ b2 ∧ b2 ≤ 159)
  else decide (128 ≤ b2 ∧ b2 ≤ 191)

/-- Valid second byte of a four-byte sequence, given the first byte. -/
def utf8SecondOk4 (b1 b2 : Nat) : Bool :=
  if b1 = 240 then decide (144 ≤ b2 ∧ b2 ≤ 191)
  else if b1 = 244 then decide (128 ≤ b2 ∧ b2 ≤ 143)
  else decide (128 ≤ b2 ∧ b2 ≤ 191)

def utf8DecodeOne : List Nat → Option (Nat × List Nat)
  | [] => none
  | b1 :: rest =>
    if b1 < 128 then some (b1, rest)
    else if 194 ≤ b1 ∧ b1 ≤ 223 then
      if 1 ≤ rest.length ∧ 128 ≤ rest.getD 0 0 ∧ rest.getD 0 0 ≤ 191 then
        some ((b1 - 192) * 64 + (rest.getD 0 0 - 128), rest.drop 1)
      else none
    else if 224 ≤ b1 ∧ b1 ≤ 239 then
      if 2 ≤ rest.length ∧ utf8SecondOk3 b1 (rest.getD 0 0) = true ∧
         128 ≤ rest.getD 1 0 ∧ rest.getD 1 0 ≤ 191 then
        some ((b1 - 224) * 4096 + (rest.getD 0 0 - 128) * 64 +
              (rest.getD 1 0 - 128), rest.drop 2)
      else none
    else if 240 ≤ b1 ∧ b1 ≤ 244 then
      if 3 ≤ rest.length ∧ utf8SecondOk4 b1 (rest.getD 0 0) = true ∧
         128 ≤ rest.getD 1 0 ∧ rest.getD 1 0 ≤ 191 ∧
         128 ≤ rest.getD 2 0 ∧ rest.getD 2 0 ≤ 191 then
        some ((b1 - 240) * 262144 + (rest.getD 0 0 - 128) * 4096 +
              (rest.getD 1 0 - 128) * 64 + (rest.getD 2 0 - 128), rest.drop 3)
      else none
    else none

/-- Strict UTF-8 decoding of a whole byte list (model of
`bytes.decode("utf-8")`).  Fuel-indexed so that it evaluates by
reduction; each step consumes at least one byte, so the byte count is
always enough fuel. -/
def utf8DecodeFuel : Nat → List Nat → Option (List Nat)
  | _, [] => some []
  | 0, _ :: _ => none
  | fuel + 1, b1 :: rest =>
    match utf8DecodeOne (b1 :: rest) with
    | some (c, r) =>
      match utf8DecodeFuel fuel r with
      | some cs => some (c :: cs)
      | none => none
    | none => none

def utf8Decode (l : List Nat) : Option (List Nat) := utf8DecodeFuel l.length l

/-! ### Round-trip of the string scanner over the escaper -/

theorem fromHex_toHex (n : Nat) (h : n < 16) : fromHexDigit (toHexDigit n) = some n := by
  unfold toHexDigit fromHexDigit
  split_ifs <;> first | (simp only [Option.some.injEq]; omega) | (exfalso; omega)

theorem toHexDigit_lt (n : Nat) (h : n < 16) : toHexDigit n < 128 := by
  unfold toHexDigit; split_ifs <;> omega

theorem parseLookaheadLo_head_ne (c : Nat) (t : List Nat) (h : c ≠ 92) :
    parseLookaheadLo (c :: t) = none := by
  unfold parseLookaheadLo
  have hne : (c :: t).take 2 ≠ [92, 117] := by
    cases t with
    | nil => simp
    | cons a t2 =>
        simp only [List.take, List.cons.injEq, ne_eq, not_and]
        intro hc
        exact absurd hc h
  rw [if_neg hne]

theorem parseLookaheadLo_nil : parseLookaheadLo [] = none := by
  unfold parseLookaheadLo
  rw [if_neg]
  simp

theorem parseLookaheadLo_esc2 (e : Nat) (t : List Nat) (h : e ≠ 117) :
    parseLookaheadLo (92 :: e :: t) = none := by
  unfold parseLookaheadLo
  have hne : (92 :: e :: t).take 2 ≠ [92, 117] := by
    simp only [List.take, List.cons.injEq, ne_eq, not_and]
    intro _ hc
    exact absurd hc h
  rw [if_neg hne]

theorem parseLookaheadLo_u (v : Nat) (t : List Nat) (hv : v < 65536) :
    parseLookaheadLo (92 :: 117 :: (hex4 v ++ t)) =
      if isLoSurr v then some (v, t) else none := by
  unfold parseLookaheadLo hex4
  rw [if_pos (by simp [List.take])]
  simp only [List.get?_cons_succ, List.get?_cons_zero, List.cons_append, List.nil_append,
    Option.some_bind]
  rw [fromHex_toHex _ (by omega), fromHex_toHex _ (by omega),
      fromHex_toHex _ (by omega), fromHex_toHex _ (by omega)]
  simp only []
  have hrec : v / 4096 % 16 * 4096 + v / 256 % 16 * 256 + v / 16 % 16 * 16 + v % 16 = v := by
    omega
  rw [hrec]
  congr 1

theorem parse_quote (r : List Nat) : parseJsonStringBody (34 :: r) = some ([], r) := by
  rw [parseJsonStringBody.eq_def]
  simp

theorem parse_lit (c : Nat) (r : List Nat) (h1 : c ≠ 34) (h2 : c ≠ 92) (h3 : 32 ≤ c) :
    parseJsonStringBody (c :: r) = consRes c (parseJsonStringBody r) := by
  rw [parseJsonStringBody.eq_def]
  simp only [h1, h2, h3, if_false, if_true, ite_false, ite_true, if_neg, if_pos]

theorem parse_esc2 (e d : Nat) (r : List Nat) (hd : escCode e = some d) :
    parseJsonStringBody (92 :: e :: r) = consRes d (parseJsonStringBody r) := by
  have he : e = 34 ∨ e = 92 ∨ e = 47 ∨ e = 98 ∨ e = 102 ∨ e = 110 ∨ e = 114 ∨ e = 116 := by
    unfold escCode at hd
    split_ifs at hd <;> simp_all
  rcases he with h | h | h | h | h | h | h | h <;>
    (subst h
     simp [escCode, Option.some.injEq] at hd
     subst hd
     rw [parseJsonStringBody.eq_def]
     simp [escCode])

theorem parse_u_nothi (u : Nat) (r : List Nat) (hu : u < 65536)
    (hhi : isHiSurr u = false) :
    parseJsonStringBody (92 :: 117 :: (hex4 u ++ r)) =
      consRes u (parseJsonStringBody r) := by
  have d1 := fromHex_toHex (u / 4096 % 16) (by omega)
  have d2 := fromHex_toHex (u / 256 % 16) (by omega)
  have d3 := fromHex_toHex (u / 16 % 16) (by omega)
  have d4 := fromHex_toHex (u % 16) (by omega)
  have hrec : u / 4096 % 16 * 4096 + u / 256 % 16 * 256 + u / 16 % 16 * 16 + u % 16 = u := by
    omega
  rw [parseJsonStringBody.eq_def]
  simp only [hex4, List.cons_append, List.nil_append, d1, d2, d3, d4, hrec, hhi]
  simp

theorem parse_u_hi_none (u : Nat) (r : List Nat) (hu : u < 65536)
    (hhi : isHiSurr u = true) (hlk : parseLookaheadLo r = none) :
    parseJsonStringBody (92 :: 117 :: (hex4 u ++ r)) =
      consRes u (parseJsonStringBody r) := by
  have d1 := fromHex_toHex (u / 4096 % 16) (by omega)
  have d2 := fromHex_toHex (u / 256 % 16) (by omega)
  have d3 := fromHex_toHex (u / 16 % 16) (by omega)
  have d4 := fromHex_toHex (u % 16) (by omega)
  have hrec : u / 4096 % 16 * 4096 + u / 256 % 16 * 256 + u / 16 % 16 * 16 + u % 16 = u := by
    omega
  rw [parseJsonStringBody.eq_def]
  simp only [hex4, List.cons_append, List.nil_append, d1, d2, d3, d4, hrec, hhi]
  norm_num
  split
  · rename_i heq
    rw [hlk] at heq
    simp at heq
  · rfl

theorem parse_u_hi_lo (u u2 : Nat) (r r4 : List Nat) (hu : u < 65536)
    (hhi : isHiSurr u = true) (hlk : parseLookaheadLo r = some (u2, r4)) :
    parseJsonStringBody (92 :: 117 :: (hex4 u ++ r)) =
      consRes (65536 + (u - 55296) * 1024 + (u2 - 56320)) (parseJsonStringBody r4) := by
  have d1 := fromHex_toHex (u / 4096 % 16) (by omega)
  have d2 := fromHex_toHex (u / 256 % 16) (by omega)
  have d3 := fromHex_toHex (u / 16 % 16) (by omega)
  have d4 := fromHex_toHex (u % 16) (by omega)
  have hrec : u / 4096 % 16 * 4096 + u / 256 % 16 * 256 + u / 16 % 16 * 16 + u % 16 = u := by
    omega
  rw [parseJsonStringBody.eq_def]
  simp only [hex4, List.cons_append, List.nil_append, d1, d2, d3, d4, hrec, hhi]
  norm_num
  split
  · rename_i heq
    rw [hlk] at heq
    simp only [Option.some.injEq, Prod.mk.injEq] at heq
    obtain ⟨h1, h2⟩ := heq
    subst h1
    subst h2
    rfl
  · rename_i heq
    rw [hlk] at heq
    simp at heq

/-- No high surrogate immediately followed by a low surrogate anywhere
in the string (such adjacent pairs are re-combined by `json.loads` into
one supplementary code point and so do not survive a round-trip). -/
def noSurrPairB : List Nat → Bool
  | c1 :: c2 :: rest => (!(isHiSurr c1 && isLoSurr c2)) && noSurrPairB (c2 :: rest)
  | _ => true

theorem noSurrPairB_tail {c : Nat} {s : List Nat}
    (h : noSurrPairB (c :: s) = true) : noSurrPairB s = true := by
  cases s with
  | nil => rfl
  | cons c2 s2 =>
      unfold noSurrPairB at h
      exact (Bool.and_elim_right h)

theorem noSurrPairB_head {c c2 : Nat} {s : List Nat}
    (h : noSurrPairB (c :: c2 :: s) = true) (hhi : isHiSurr c = true) :
    isLoSurr c2 = false := by
  unfold noSurrPairB at h
  have h1 := Bool.and_elim_left h
  cases hlo : isLoSurr c2 with
  | false => rfl
  | true => rw [hhi, hlo] at h1; simp at h1

theorem parseLookaheadLo_escChar (c2 : Nat) (X : List Nat) (hv : c2 < 1114112)
    (hlo : isLoSurr c2 = false) :
    parseLookaheadLo (escChar c2 ++ X) = none := by
  unfold escChar
  split_ifs with h1 h2 h3 h4 h5 h6 h7 h8 h9
  · exact parseLookaheadLo_esc2 34 X (by omega)
  · exact parseLookaheadLo_esc2 92 X (by omega)
  · exact parseLookaheadLo_esc2 98 X (by omega)
  · exact parseLookaheadLo_esc2 116 X (by omega)
  · exact parseLookaheadLo_esc2 110 X (by omega)
  · exact parseLookaheadLo_esc2 102 X (by omega)
  · exact parseLookaheadLo_esc2 114 X (by omega)
  · exact parseLookaheadLo_head_ne c2 X (fun hc => h2 hc)
  · rw [List.cons_append, List.cons_append,
        parseLookaheadLo_u c2 X (by omega), hlo]
    simp
  · simp only [List.cons_append, List.append_assoc]
    rw [parseLookaheadLo_u (55296 + (c2 - 65536) / 1024) _ (by omega)]
    have : isLoSurr (55296 + (c2 - 65536) / 1024) = false := by
      unfold isLoSurr
      simp only [decide_eq_false_iff_not]
      intro hc
      omega
    rw [this]
    simp

/-- `json.loads`' string scanner inverts `json.dumps`' escaper on every
Python string without adjacent hi/lo surrogate pairs. -/
theorem parse_escString (s : Str) (rest : List Nat)
    (hv : ∀ c ∈ s, c < 1114112) (hn : noSurrPairB s = true) :
    parseJsonStringBody (escString s ++ 34 :: rest) = some (s, rest) := by
  induction s with
  | nil => simpa [escString] using parse_quote rest
  | cons c s' ih =>
      have hvc : c < 1114112 := hv c (by simp)
      have hv' : ∀ x ∈ s', x < 1114112 := fun x hx => hv x (by simp [hx])
      have ihs := ih hv' (noSurrPairB_tail hn)
      rw [escString, List.append_assoc]
      unfold escChar
      split_ifs with h1 h2 h3 h4 h5 h6 h7 h8 h9
      · subst h1
        rw [List.cons_append, List.cons_append, List.nil_append,
            parse_esc2 34 34 _ (by norm_num [escCode]), ihs]
        rfl
      · subst h2
        rw [List.cons_append, List.cons_append, List.nil_append,
            parse_esc2 92 92 _ (by norm_num [escCode]), ihs]
        rfl
      · subst h3
        rw [List.cons_append, List.cons_append, List.nil_append,
            parse_esc2 98 8 _ (by norm_num [escCode]), ihs]
        rfl
      · subst h4
        rw [List.cons_append, List.cons_append, List.nil_append,
            parse_esc2 116 9 _ (by norm_num [escCode]), ihs]
        rfl
      · subst h5
        rw [List.cons_append, List.cons_append, List.nil_append,
            parse_esc2 110 10 _ (by norm_num [escCode]), ihs]
        rfl
      · subst h6
        rw [List.cons_append, List.cons_append, List.nil_append,
            parse_esc2 102 12 _ (by norm_num [escCode]), ihs]
        rfl
      · subst h7
        rw [List.cons_append, List.cons_append, List.nil_append,
            parse_esc2 114 13 _ (by norm_num [escCode]), ihs]
        rfl
      · rw [List.cons_append, List.nil_append, parse_lit c _ h1 h2 h8.1, ihs]
        rfl
      · rw [List.cons_append, List.cons_append]
        by_cases hhi : isHiSurr c = true
        · have hlkR : parseLookaheadLo (escString s' ++ 34 :: rest) = none := by
            cases s' with
            | nil =>
                rw [escString, List.nil_append]
                exact parseLookaheadLo_head_ne 34 rest (by omega)
            | cons c2 s2 =>
                rw [escString, List.append_assoc]
                exact parseLookaheadLo_escChar c2 _ (hv' c2 (by simp))
                  (noSurrPairB_head hn hhi)
          rw [parse_u_hi_none c _ (by omega) hhi hlkR, ihs]
          rfl
        · have hhi2 : isHiSurr c = false := by simpa using hhi
          rw [parse_u_nothi c _ (by omega) hhi2, ihs]
          rfl
      · simp only [List.cons_append, List.append_assoc]
        have hlo2 : isLoSurr (56320 + (c - 65536) % 1024) = true := by
          unfold isLoSurr
          simp only [decide_eq_true_eq]
          omega
        have hhi2 : isHiSurr (55296 + (c - 65536) / 1024) = true := by
          unfold isHiSurr
          simp only [decide_eq_true_eq]
          omega
        have hlk : parseLookaheadLo
            (92 :: 117 :: (hex4 (56320 + (c - 65536) % 1024) ++
              (escString s' ++ 34 :: rest))) =
            some (56320 + (c - 65536) % 1024, escString s' ++ 34 :: rest) := by
          rw [parseLookaheadLo_u _ _ (by omega), hlo2]
          simp
        rw [parse_u_hi_lo _ _ _ _ (by omega) hhi2 hlk, ihs]
        simp [consRes]
        omega

/-! ## The resumption token and its codec (`river_core/helpers.py`) -/

/-- `ResumptionToken` (TypedDict in `river_core/types.py`): four
required string fields. -/
structure ResumptionToken where
  provider_id : Str
  router_stream_key : Str
  stream_storage_id : Str
  stream_run_id : Str
deriving DecidableEq, Repr

/-- One `"key": "value"` member as `json.dumps` prints it
(`": "` separator, both sides quoted, the value escaped). -/
def memberJson (key : String) (v : Str) : List Nat :=
  34 :: (strCp key ++ (34 :: 58 :: 32 :: 34 :: (escString v ++ [34])))

/-- `json.dumps(token)`: the object in the field order used when
`RedisRiverProvider.start_stream` constructs the token, with the
default `", "` item separator, as a code point list (pure ASCII). -/
def tokenJson (t : ResumptionToken) : List Nat :=
  123 :: (memberJson "provider_id" t.provider_id ++
    (44 :: 32 :: (memberJson "router_stream_key" t.router_stream_key ++
      (44 :: 32 :: (memberJson "stream_storage_id" t.stream_storage_id ++
        (44 :: 32 :: (memberJson "stream_run_id" t.stream_run_id ++ [125])))))))

/-- The dict `json.loads` recovers from `tokenJson` (Python dicts keep
insertion order). -/
def tokenPairs (t : ResumptionToken) : List (Str × Str) :=
  [(strCp "provider_id", t.provider_id),
   (strCp "router_stream_key", t.router_stream_key),
   (strCp "stream_storage_id", t.stream_storage_id),
   (strCp "stream_run_id", t.stream_run_id)]

/-- Model of `encode_resumption_token` (`helpers.py`):
`base64.b64encode(json.dumps(token).encode("utf-8"))`.  The result is a
character-code list (the final `.decode("utf-8")` of the ASCII base-64
bytes is the identity). -/
def encode_resumption_token (t : ResumptionToken) : List Nat :=
  b64encode (utf8Encode (tokenJson t))

/-- Model of `decode_resumption_token` (`helpers.py`) and of the inline
copy in `StreamCaller.resume` (`callers.py`):
`json.loads(base64.b64decode(encoded).decode("utf-8"))` followed by
`ResumptionToken(**data)`.  A `TypedDict` call performs **no** runtime
field checking — it is a plain `dict` construction — so the result is
just the parsed object; no missing-field validation happens. -/
def decode_resumption_token (s : Str) : Option (List (Str × Str)) :=
  match b64decode s with
  | none => none
  | some bytes =>
    match utf8Decode bytes with
    | none => none
    | some chars => parseObjTop chars

/-! ### ASCII and UTF-8 helper lemmas -/

theorem hex4_ascii (v : Nat) : ∀ x ∈ hex4 v, x < 128 := by
  intro x hx
  simp only [hex4, List.mem_cons, List.not_mem_nil, or_false] at hx
  rcases hx with h | h | h | h <;> (subst h; exact toHexDigit_lt _ (by omega))

theorem escChar_ascii (c : Nat) : ∀ x ∈ escChar c, x < 128 := by
  intro x hx
  unfold escChar at hx
  split_ifs at hx with h1 h2 h3 h4 h5 h6 h7 h8 h9
  · simp only [List.mem_cons, List.not_mem_nil, or_false] at hx
    rcases hx with h | h <;> omega
  · simp only [List.mem_cons, List.not_mem_nil, or_false] at hx
    rcases hx with h | h <;> omega
  · simp only [List.mem_cons, List.not_mem_nil, or_false] at hx
    rcases hx with h | h <;> omega
  · simp only [List.mem_cons, List.not_mem_nil, or_false] at hx
    rcases hx with h | h <;> omega
  · simp only [List.mem_cons, List.not_mem_nil, or_false] at hx
    rcases hx with h | h <;> omega
  · simp only [List.mem_cons, List.not_mem_nil, or_false] at hx
    rcases hx with h | h <;> omega
  · simp only [List.mem_cons, List.not_mem_nil, or_false] at hx
    rcases hx with h | h <;> omega
  · simp only [List.mem_cons, List.not_mem_nil, or_false] at hx
    omega
  · simp only [List.mem_cons] at hx
    rcases hx with h | h | h
    · omega
    · omega
    · exact hex4_ascii _ x h
  · simp only [List.mem_append, List.mem_cons] at hx
    rcases hx with (h | h | h) | (h | h | h)
    · omega
    · omega
    · exact hex4_ascii _ x h
    · omega
    · omega
    · exact hex4_ascii _ x h

theorem escString_ascii (s : Str) : ∀ x ∈ escString s, x < 128 := by
  induction s with
  | nil => intro x hx; simp [escString] at hx
  | cons c s' ih =>
      intro x hx
      rw [escString] at hx
      rcases List.mem_append.mp hx with h | h
      · exact escChar_ascii c x h
      · exact ih x h

theorem utf8Encode_ascii (l : List Nat) (h : ∀ x ∈ l, x < 128) :
    utf8Encode l = l := by
  induction l with
  | nil => rfl
  | cons c s ih =>
      rw [utf8Encode, utf8EncodeChar, if_pos (h c (by simp))]
      rw [ih (fun x hx => h x (by simp [hx]))]
      rfl

theorem utf8DecodeOne_ascii (c : Nat) (r : List Nat) (h : c < 128) :
    utf8DecodeOne (c :: r) = some (c, r) := by
  unfold utf8DecodeOne
  simp only []
  rw [if_pos h]

theorem utf8DecodeFuel_ascii (fuel : Nat) (l : List Nat) (hf : l.length ≤ fuel)
    (h : ∀ x ∈ l, x < 128) : utf8DecodeFuel fuel l = some l := by
  induction fuel generalizing l with
  | zero =>
      cases l with
      | nil => rfl
      | cons c s => simp at hf
  | succ f ih =>
      cases l with
      | nil => rfl
      | cons c s =>
          rw [utf8DecodeFuel]
          rw [utf8DecodeOne_ascii c s (h c (by simp))]
          simp only []
          rw [ih s (by simp at hf; omega) (fun x hx => h x (by simp [hx]))]

theorem utf8Decode_ascii (l : List Nat) (h : ∀ x ∈ l, x < 128) :
    utf8Decode l = some l :=
  utf8DecodeFuel_ascii l.length l le_rfl h

/-! ### Parsing the printed token object -/

theorem skipWs_nows (c : Nat) (l : List Nat) (h : isWsChar c = false) :
    skipWs (c :: l) = c :: l := by
  simp [skipWs, List.dropWhile, h]

theorem skipWs_sp (l : List Nat) : skipWs (32 :: l) = skipWs l := by
  simp [skipWs, List.dropWhile, isWsChar]

/-- A string whose escaped form is itself (true of the four key
names) parses back to itself. -/
theorem parse_plain_key (k : Str) (rest : List Nat) (hesc : escString k = k)
    (hv : ∀ c ∈ k, c < 1114112) (hn : noSurrPairB k = true) :
    parseJsonStringBody (k ++ 34 :: rest) = some (k, rest) := by
  conv_lhs => rw [← hesc]
  exact parse_escString k rest hv hn

theorem parsePairJ_member_gen (key : String) (v w : Str) (r : List Nat)
    (hkey : escString (strCp key) = strCp key)
    (hkeyv : ∀ c ∈ strCp key, c < 1114112) (hkeyn : noSurrPairB (strCp key) = true)
    (hparse : ∀ r2 : List Nat,
      parseJsonStringBody (escString v ++ 34 :: r2) = some (w, r2)) :
    parsePairJ (memberJson key v ++ r) = some ((strCp key, w), r) := by
  unfold parsePairJ parseStrTok memberJson
  simp only [List.cons_append, List.append_assoc, List.nil_append, List.singleton_append]
  rw [skipWs_nows 34 _ (by decide)]
  simp only []
  rw [parse_plain_key (strCp key) _ hkey hkeyv hkeyn]
  simp only []
  rw [skipWs_nows 58 _ (by decide)]
  simp only []
  rw [skipWs_sp, skipWs_nows 34 _ (by decide)]
  simp only []
  rw [hparse r]

theorem parsePairJ_sp (l : List Nat) : parsePairJ (32 :: l) = parsePairJ l := by
  unfold parsePairJ parseStrTok
  rw [skipWs_sp]

theorem parseMembers_sp (fuel : Nat) (l : List Nat) :
    parseMembers fuel (32 :: l) = parseMembers fuel l := by
  cases fuel with
  | zero => rfl
  | succ f => simp only [parseMembers, parsePairJ_sp]

theorem parseMembers_last_gen (f : Nat) (key : String) (v w : Str)
    (hkey : escString (strCp key) = strCp key)
    (hkeyv : ∀ c ∈ strCp key, c < 1114112) (hkeyn : noSurrPairB (strCp key) = true)
    (hparse : ∀ r2 : List Nat,
      parseJsonStringBody (escString v ++ 34 :: r2) = some (w, r2)) :
    parseMembers (f + 1) (memberJson key v ++ [125]) =
      some ([(strCp key, w)], []) := by
  simp only [parseMembers]
  rw [parsePairJ_member_gen key v w _ hkey hkeyv hkeyn hparse]
  simp only []
  rw [skipWs_nows 125 _ (by decide)]

theorem parseMembers_cons_gen (f : Nat) (key : String) (v w : Str) (rest2 : List Nat)
    (ps : List (Str × Str)) (r3 : List Nat)
    (hkey : escString (strCp key) = strCp key)
    (hkeyv : ∀ c ∈ strCp key, c < 1114112) (hkeyn : noSurrPairB (strCp key) = true)
    (hparse : ∀ r2 : List Nat,
      parseJsonStringBody (escString v ++ 34 :: r2) = some (w, r2))
    (hnext : parseMembers f rest2 = some (ps, r3)) :
    parseMembers (f + 1) (memberJson key v ++ (44 :: 32 :: rest2)) =
      some ((strCp key, w) :: ps, r3) := by
  simp only [parseMembers]
  rw [parsePairJ_member_gen key v w _ hkey hkeyv hkeyn hparse]
  simp only []
  rw [skipWs_nows 44 _ (by decide)]
  simp only []
  rw [parseMembers_sp, hnext]

theorem memberJson_head (key : String) (v : Str) (X : List Nat) :
    memberJson key v ++ X =
      34 :: ((strCp key ++ (34 :: 58 :: 32 :: 34 :: (escString v ++ [34]))) ++ X) := by
  unfold memberJson
  rw [List.cons_append]

/-- `json.loads` on the printed token object, generalized over what
each field's string body parses back to. -/
theorem parseObjTop_tokenJson_gen (t : ResumptionToken) (w1 w2 w3 w4 : Str)
    (hp1 : ∀ r2 : List Nat,
      parseJsonStringBody (escString t.provider_id ++ 34 :: r2) = some (w1, r2))
    (hp2 : ∀ r2 : List Nat,
      parseJsonStringBody (escString t.router_stream_key ++ 34 :: r2) = some (w2, r2))
    (hp3 : ∀ r2 : List Nat,
      parseJsonStringBody (escString t.stream_storage_id ++ 34 :: r2) = some (w3, r2))
    (hp4 : ∀ r2 : List Nat,
      parseJsonStringBody (escString t.stream_run_id ++ 34 :: r2) = some (w4, r2)) :
    parseObjTop (tokenJson t) =
      some [(strCp "provider_id", w1), (strCp "router_stream_key", w2),
            (strCp "stream_storage_id", w3), (strCp "stream_run_id", w4)] := by
  have step4 : ∀ f : Nat, parseMembers (f + 1)
      (memberJson "stream_run_id" t.stream_run_id ++ [125]) =
      some ([(strCp "stream_run_id", w4)], []) :=
    fun f => parseMembers_last_gen f _ _ _ (by decide) (by decide) (by decide) hp4
  have step3 : ∀ f : Nat, parseMembers (f + 2)
      (memberJson "stream_storage_id" t.stream_storage_id ++
        (44 :: 32 :: (memberJson "stream_run_id" t.stream_run_id ++ [125]))) =
      some ([(strCp "stream_storage_id", w3),
             (strCp "stream_run_id", w4)], []) := by
    intro f
    rw [show f + 2 = (f + 1) + 1 by omega]
    exact parseMembers_cons_gen _ _ _ _ _ _ _ (by decide) (by decide) (by decide)
      hp3 (step4 f)
  have step2 : ∀ f : Nat, parseMembers (f + 3)
      (memberJson "router_stream_key" t.router_stream_key ++
        (44 :: 32 :: (memberJson "stream_storage_id" t.stream_storage_id ++
          (44 :: 32 :: (memberJson "stream_run_id" t.stream_run_id ++ [125]))))) =
      some ([(strCp "router_stream_key", w2),
             (strCp "stream_storage_id", w3),
             (strCp "stream_run_id", w4)], []) := by
    intro f
    rw [show f + 3 = (f + 2) + 1 by omega]
    exact parseMembers_cons_gen _ _ _ _ _ _ _ (by decide) (by decide) (by decide)
      hp2 (step3 f)
  have step1 : ∀ f : Nat, parseMembers (f + 4)
      (memberJson "provider_id" t.provider_id ++
        (44 :: 32 :: (memberJson "router_stream_key" t.router_stream_key ++
          (44 :: 32 :: (memberJson "stream_storage_id" t.stream_storage_id ++
            (44 :: 32 :: (memberJson "stream_run_id" t.stream_run_id ++ [125]))))))) =
      some ([(strCp "provider_id", w1), (strCp "router_stream_key", w2),
             (strCp "stream_storage_id", w3), (strCp "stream_run_id", w4)], []) := by
    intro f
    rw [show f + 4 = (f + 3) + 1 by omega]
    exact parseMembers_cons_gen _ _ _ _ _ _ _ (by decide) (by decide) (by decide)
      hp1 (step2 f)
  unfold parseObjTop tokenJson
  rw [skipWs_nows 123 _ (by decide)]
  simp only []
  rw [memberJson_head, skipWs_nows 34 _ (by decide)]
  simp only []
  rw [← memberJson_head]
  have hbig : 3 ≤ (123 :: (memberJson "provider_id" t.provider_id ++
      (44 :: 32 :: (memberJson "router_stream_key" t.router_stream_key ++
        (44 :: 32 :: (memberJson "stream_storage_id" t.stream_storage_id ++
          (44 :: 32 :: (memberJson "stream_run_id" t.stream_run_id ++ [125])))))))).length := by
    simp [memberJson]
    omega
  rw [show (123 :: (memberJson "provider_id" t.provider_id ++
      (44 :: 32 :: (memberJson "router_stream_key" t.router_stream_key ++
        (44 :: 32 :: (memberJson "stream_storage_id" t.stream_storage_id ++
          (44 :: 32 :: (memberJson "stream_run_id" t.stream_run_id ++ [125])))))))).length + 1 =
      ((123 :: (memberJson "provider_id" t.provider_id ++
      (44 :: 32 :: (memberJson "router_stream_key" t.router_stream_key ++
        (44 :: 32 :: (memberJson "stream_storage_id" t.stream_storage_id ++
          (44 :: 32 :: (memberJson "stream_run_id" t.stream_run_id ++ [125])))))))).length - 3) + 4
    by omega]
  rw [step1]
  simp [skipWs]

/-- `json.loads` recovers the four-field object (in insertion order)
from the `json.dumps` output of any token whose fields are Python
strings without adjacent surrogate pairs. -/
theorem parseObjTop_tokenJson (t : ResumptionToken)
    (h1v : ∀ c ∈ t.provider_id, c < 1114112) (h1n : noSurrPairB t.provider_id = true)
    (h2v : ∀ c ∈ t.router_stream_key, c < 1114112)
    (h2n : noSurrPairB t.router_stream_key = true)
    (h3v : ∀ c ∈ t.stream_storage_id, c < 1114112)
    (h3n : noSurrPairB t.stream_storage_id = true)
    (h4v : ∀ c ∈ t.stream_run_id, c < 1114112)
    (h4n : noSurrPairB t.stream_run_id = true) :
    parseObjTop (tokenJson t) = some (tokenPairs t) :=
  parseObjTop_tokenJson_gen t _ _ _ _
    (fun r2 => parse_escString _ r2 h1v h1n)
    (fun r2 => parse_escString _ r2 h2v h2n)
    (fun r2 => parse_escString _ r2 h3v h3n)
    (fun r2 => parse_escString _ r2 h4v h4n)

theorem memberJson_ascii (key : String) (v : Str)
    (hk : ∀ x ∈ strCp key, x < 128) : ∀ x ∈ memberJson key v, x < 128 := by
  intro x hx
  unfold memberJson at hx
  rcases List.mem_cons.mp hx with h | hx2
  · omega
  rcases List.mem_append.mp hx2 with h | hx3
  · exact hk x h
  rcases List.mem_cons.mp hx3 with h | hx4
  · omega
  rcases List.mem_cons.mp hx4 with h | hx5
  · omega
  rcases List.mem_cons.mp hx5 with h | hx6
  · omega
  rcases List.mem_cons.mp hx6 with h | hx7
  · omega
  rcases List.mem_append.mp hx7 with h | hx8
  · exact escString_ascii v x h
  rcases List.mem_singleton.mp hx8 with h
  omega

theorem tokenJson_ascii (t : ResumptionToken) : ∀ x ∈ tokenJson t, x < 128 := by
  have m1 := memberJson_ascii "provider_id" t.provider_id (by decide)
  have m2 := memberJson_ascii "router_stream_key" t.router_stream_key (by decide)
  have m3 := memberJson_ascii "stream_storage_id" t.stream_storage_id (by decide)
  have m4 := memberJson_ascii "stream_run_id" t.stream_run_id (by decide)
  intro x hx
  unfold tokenJson at hx
  rcases List.mem_cons.mp hx with h | hx2
  · omega
  rcases List.mem_append.mp hx2 with h | hx3
  · exact m1 x h
  rcases List.mem_cons.mp hx3 with h | hx4
  · omega
  rcases List.mem_cons.mp hx4 with h | hx5
  · omega
  rcases List.mem_append.mp hx5 with h | hx6
  · exact m2 x h
  rcases List.mem_cons.mp hx6 with h | hx7
  · omega
  rcases List.mem_cons.mp hx7 with h | hx8
  · omega
  rcases List.mem_append.mp hx8 with h | hx9
  · exact m3 x h
  rcases List.mem_cons.mp hx9 with h | hx10
  · omega
  rcases List.mem_cons.mp hx10 with h | hx11
  · omega
  rcases List.mem_append.mp hx11 with h | hx12
  · exact m4 x h
  rcases List.mem_singleton.mp hx12 with h
  omega

/-- Well-formedness of a token value: each field is a Python string
(code points below 0x110000) with no adjacent high/low surrogate pair. -/
def tokenWf (t : ResumptionToken) : Prop :=
  (∀ c ∈ t.provider_id, c < 1114112) ∧ noSurrPairB t.provider_id = true ∧
  (∀ c ∈ t.router_stream_key, c < 1114112) ∧ noSurrPairB t.router_stream_key = true ∧
  (∀ c ∈ t.stream_storage_id, c < 1114112) ∧ noSurrPairB t.stream_storage_id = true ∧
  (∀ c ∈ t.stream_run_id, c < 1114112) ∧ noSurrPairB t.stream_run_id = true

instance (t : ResumptionToken) : Decidable (tokenWf t) := by
  unfold tokenWf
  infer_instance

/-- Full codec round-trip: decoding the encoded form of a well-formed
token recovers exactly the token's four-field dict. -/
theorem decode_encode_token (t : ResumptionToken) (h : tokenWf t) :
    decode_resumption_token (encode_resumption_token t) = some (tokenPairs t) := by
  obtain ⟨h1v, h1n, h2v, h2n, h3v, h3n, h4v, h4n⟩ := h
  have hascii := tokenJson_ascii t
  unfold decode_resumption_token encode_resumption_token
  rw [utf8Encode_ascii _ hascii]
  rw [b64decode_b64encode _ (fun b hb => by have := hascii b hb; omega)]
  simp only []
  rw [utf8Decode_ascii _ hascii]
  simp only []
  exact parseObjTop_tokenJson t h1v h1n h2v h2n h3v h3n h4v h4n

/-! ### An adjacent lone-surrogate pair does not survive the codec -/

/-- The two-character Python string `"\ud83d" + "\ude00"` (a lone high
surrogate followed by a lone low surrogate) is escaped by `json.dumps`
to `😀`, which `json.loads` recombines into the single code
point U+1F600. -/
theorem parse_surr_pair (rest : List Nat) :
    parseJsonStringBody (escString ([55357, 56832] : Str) ++ 34 :: rest) =
      some ([128512], rest) := by
  have hlk : parseLookaheadLo (92 :: 117 :: (hex4 56832 ++ (34 :: rest))) =
      some (56832, 34 :: rest) := by
    rw [parseLookaheadLo_u 56832 _ (by norm_num)]
    norm_num [isLoSurr]
  have h := parse_u_hi_lo 55357 56832
    (92 :: 117 :: (hex4 56832 ++ (34 :: rest))) (34 :: rest)
    (by norm_num) (by decide) hlk
  have hshape : escString ([55357, 56832] : Str) ++ 34 :: rest =
      92 :: 117 :: (hex4 55357 ++ (92 :: 117 :: (hex4 56832 ++ (34 :: rest)))) := by
    norm_num [escString, escChar, List.append_assoc]
  rw [hshape, h, parse_quote]
  norm_num [consRes]

/-- Encoding and then decoding a token whose `provider_id` is the
two-character surrogate string yields a one-character (recombined)
`provider_id` instead: the round-trip is not bit-identical. -/
theorem decode_encode_surr :
    decode_resumption_token (encode_resumption_token
      ⟨[55357, 56832], strCp "x", strCp "y", strCp "z"⟩) =
    some [(strCp "provider_id", ([128512] : Str)),
          (strCp "router_stream_key", strCp "x"),
          (strCp "stream_storage_id", strCp "y"),
          (strCp "stream_run_id", strCp "z")] := by
  have hascii := tokenJson_ascii ⟨[55357, 56832], strCp "x", strCp "y", strCp "z"⟩
  unfold decode_resumption_token encode_resumption_token
  rw [utf8Encode_ascii _ hascii]
  rw [b64decode_b64encode _ (fun b hb => by have := hascii b hb; omega)]
  simp only []
  rw [utf8Decode_ascii _ hascii]
  simp only []
  exact parseObjTop_tokenJson_gen _ _ _ _ _
    (fun r2 => parse_surr_pair r2)
    (fun r2 => parse_escString _ r2 (by decide) (by decide))
    (fun r2 => parse_escString _ r2 (by decide) (by decide))
    (fun r2 => parse_escString _ r2 (by decide) (by decide))

/-! ## Item model (`river_core/types.py`) -/

/-- `RiverErrorType` (`river_core/errors.py`). -/
inductive RiverErrorType
  | unknown
  | validation
  | provider
  | streamNotFound
  | invalidResumptionToken
  | runnerError
  | network
deriving DecidableEq, Repr

/-- `RiverError` (`river_core/errors.py`); `details` as a string map. -/
structure RiverError where
  message : String
  error_type : RiverErrorType
  details : List (String × String) := []
deriving DecidableEq, Repr

/-- `RiverSpecialChunk` (`river_core/types.py`): the closed set of
lifecycle items.  `total_time_ms` is wall-clock derived; the machine
below abstracts the clock and always reports `0` there (no claim
depends on its value). -/
inductive RiverSpecialChunk
  | stream_start (stream_run_id : String) (encoded_resumption_token : Option String)
  | stream_end (total_chunks : Nat) (total_time_ms : Nat)
  | stream_error (error : RiverError)
  | stream_fatal_error (error : RiverError)
deriving DecidableEq, Repr

/-- `CallerStreamItem` (`river_core/types.py`), chunk payloads as
strings. -/
inductive CallerStreamItem
  | chunk (c : String)
  | special (s : RiverSpecialChunk)
  | aborted
deriving DecidableEq, Repr

def isChunkItem : CallerStreamItem → Bool
  | .chunk _ => true
  | _ => false

def isStartItem : CallerStreamItem → Bool
  | .special (.stream_start _ _) => true
  | _ => false

/-- Is this item terminal in-band (`stream_end` / `stream_fatal_error`)? -/
def isTerminalItem : CallerStreamItem → Bool
  | .special (.stream_end _ _) => true
  | .special (.stream_fatal_error _) => true
  | _ => false

/-! ## The dual-write helper as an action trace
(`RedisStreamHelper`, `river_provider_redis/provider.py`) -/

/-- One primitive effect of the redis helper: a log append
(`redis.xadd` of a `data` entry), the end-marker append
(`xadd` of `end=true`), or a live-queue publication (`queue.put`;
`none` is the close signal). -/
inductive HelperAct
  | logAppend (it : CallerStreamItem)
  | logEnd
  | queuePut (x : Option CallerStreamItem)
deriving DecidableEq, Repr

/-- The helper's public operations. -/
inductive HelperCall
  | append_chunk (c : String)
  | append_error (e : RiverError)
  | send_fatal_error_and_close (e : RiverError)
  | close
deriving DecidableEq, Repr

/-- The exact effect sequence each `RedisStreamHelper` method performs,
in source order: every dual-write method calls `_write_to_redis`
(the log append) strictly before `queue.put`; the fatal path then adds
the end marker and the `None` close signal; `close()` does nothing. -/
def helper_actions : HelperCall → List HelperAct
  | .append_chunk c =>
      [.logAppend (.chunk c), .queuePut (some (.chunk c))]
  | .append_error e =>
      [.logAppend (.special (.stream_error e)),
       .queuePut (some (.special (.stream_error e)))]
  | .send_fatal_error_and_close e =>
      [.logAppend (.special (.stream_fatal_error e)),
       .queuePut (some (.special (.stream_fatal_error e))),
       .logEnd, .queuePut none]
  | .close => []

/-! ## The provider harness as a deterministic cooperative machine

`start_stream` of both providers runs the user runner in a background
task (`asyncio.create_task`) while the generator body drains the live
queue.  In asyncio, `await queue.put(...)` on an unbounded queue
returns without yielding control, so the producer task keeps running
until it reaches a *real* suspension point: an `await` of redis I/O
(`xadd`) or an `await asyncio.sleep`.  At each such point the event
loop runs the woken drain loop, which consumes everything queued (the
drain's own consumer — the test-style `async for` — does not suspend)
and then blocks again, until it dequeues `None` and breaks.  The
machine below executes that schedule deterministically. -/

/-- A runner is a list of helper calls, possibly interleaved with real
suspension points (`await asyncio.sleep`), ending by returning
(`close()` is a no-op in both helpers). -/
inductive RunnerOp
  | append_chunk (c : String)
  | append_error (e : RiverError)
  | send_fatal_error_and_close (e : RiverError)
  | sleep
deriving DecidableEq, Repr

/-- A persisted log record: a `data` item entry or the `end=true`
marker. -/
inductive LogEntry
  | item (it : CallerStreamItem)
  | endMarker
deriving DecidableEq, Repr

/-- Harness state: live queue contents, items already yielded by the
drain loop, its `chunk_count`, the redis log, and whether the drain
loop has exited (consumed `None`). -/
structure RunState where
  queue : List (Option CallerStreamItem)
  live : List CallerStreamItem
  chunk_count : Nat
  log : List LogEntry
  closed : Bool
deriving DecidableEq, Repr

def initState : RunState := ⟨[], [], 0, [], false⟩

/-- Drain all currently queued entries: yields items (counting chunks)
until the queue is empty (the loop blocks) or `None` is dequeued (the
loop breaks); returns (yielded, chunk increments, broke, remaining). -/
def drainQueue : List (Option CallerStreamItem) →
    List CallerStreamItem × Nat × Bool × List (Option CallerStreamItem)
  | [] => ([], 0, false, [])
  | none :: rest => ([], 0, true, rest)
  | some it :: rest =>
      let r := drainQueue rest
      (it :: r.1, (if isChunkItem it then 1 else 0) + r.2.1, r.2.2.1, r.2.2.2)

/-- Run the drain loop at a producer suspension point. -/
def drain (s : RunState) : RunState :=
  if s.closed then s
  else
    let r := drainQueue s.queue
    { queue := r.2.2.2, live := s.live ++ r.1,
      chunk_count := s.chunk_count + r.2.1, log := s.log, closed := r.2.2.1 }

/-- One runner step against the redis helper: each `_write_to_redis`
(`xadd`) is a real await, so the drain loop runs right after the log
append and before the `queue.put`; the fatal path suspends again on the
end-marker `xadd`. -/
def redisOp (s : RunState) : RunnerOp → RunState
  | .append_chunk c =>
      let it := CallerStreamItem.chunk c
      let s1 := {s with log := s.log ++ [.item it]}
      let s2 := drain s1
      {s2 with queue := s2.queue ++ [some it]}
  | .append_error e =>
      let it := CallerStreamItem.special (.stream_error e)
      let s1 := {s with log := s.log ++ [.item it]}
      let s2 := drain s1
      {s2 with queue := s2.queue ++ [some it]}
  | .send_fatal_error_and_close e =>
      let it := CallerStreamItem.special (.stream_fatal_error e)
      let s1 := {s with log := s.log ++ [.item it]}
      let s2 := drain s1
      let s3 := {s2 with queue := s2.queue ++ [some it]}
      let s4 := {s3 with log := s3.log ++ [.endMarker]}
      let s5 := drain s4
      {s5 with queue := s5.queue ++ [none]}
  | .sleep => drain s

/-- `run_stream`'s epilogue after the runner returns cleanly
(`RedisRiverProvider.start_stream`): build `stream_end` from the
*current* `chunk_count` (whatever the drain loop has counted so far —
no suspension happens between the runner's return and this read), then
`_write_to_redis` it (suspension), `queue.put` it, `xadd` the end
marker (suspension), and finally `queue.put(None)`; the drain loop then
finishes. -/
def redisFinish (s : RunState) : RunState :=
  let e := CallerStreamItem.special (.stream_end s.chunk_count 0)
  let s1 := {s with log := s.log ++ [.item e]}
  let s2 := drain s1
  let s3 := {s2 with queue := s2.queue ++ [some e]}
  let s4 := {s3 with log := s3.log ++ [.endMarker]}
  let s5 := drain s4
  let s6 := {s5 with queue := s5.queue ++ [none]}
  drain s6

def redisRun (ops : List RunnerOp) : RunState :=
  redisFinish (ops.foldl redisOp initState)

def charsToString (l : List Nat) : String := String.mk (l.map Char.ofNat)

/-- The `stream_start` item `RedisRiverProvider.start_stream` yields
first (live only): it carries the encoded resumption token with
`provider_id="redis"` and an empty `router_stream_key`. -/
def redisStartChunk (storage_id run_id : String) : CallerStreamItem :=
  .special (.stream_start run_id (some (charsToString (encode_resumption_token
    ⟨strCp "redis", [], strCp storage_id, strCp run_id⟩))))

/-- The full live sequence of a redis-provider run. -/
def redisLive (storage_id run_id : String) (ops : List RunnerOp) :
    List CallerStreamItem :=
  redisStartChunk storage_id run_id :: (redisRun ops).live

/-- The persisted log of a redis-provider run. -/
def redisLog (ops : List RunnerOp) : List LogEntry := (redisRun ops).log

/-- One runner step against `DefaultStreamHelper`
(`river_core/provider.py`): no log exists and `queue.put` never
suspends, so the drain loop runs only at explicit sleeps. -/
def defaultOp (s : RunState) : RunnerOp → RunState
  | .append_chunk c => {s with queue := s.queue ++ [some (.chunk c)]}
  | .append_error e =>
      {s with queue := s.queue ++ [some (.special (.stream_error e))]}
  | .send_fatal_error_and_close e =>
      {s with queue := s.queue ++ [some (.special (.stream_fatal_error e)), none]}
  | .sleep => drain s

/-- `DefaultRiverProvider.start_stream`'s epilogue: build `stream_end`
from the current `chunk_count`, `queue.put` it and `None` (no
suspension), then let the drain loop finish. -/
def defaultFinish (s : RunState) : RunState :=
  let e := CallerStreamItem.special (.stream_end s.chunk_count 0)
  drain {s with queue := s.queue ++ [some e, none]}

def defaultRun (ops : List RunnerOp) : RunState :=
  defaultFinish (ops.foldl defaultOp initState)

/-- The full live sequence of a default-provider run (`stream_start`
carries no token: the provider is not resumable). -/
def defaultLive (run_id : String) (ops : List RunnerOp) : List CallerStreamItem :=
  .special (.stream_start run_id none) :: (defaultRun ops).live

/-! ## The resume reader (`RedisRiverProvider.resume_stream`) -/

/-- Is this log entry an end marker or an in-band terminal item?  At
either, the resume loop returns. -/
def isTermEntry : LogEntry → Bool
  | .endMarker => true
  | .item it => isTerminalItem it

/-- The items of a run of log entries (the `data` payloads). -/
def entryItems : List LogEntry → List CallerStreamItem
  | [] => []
  | .item it :: rest => it :: entryItems rest
  | .endMarker :: rest => entryItems rest

/-- What one `xread` batch produces: `.ret` when the loop returns
mid-batch (end marker seen, or a terminal item yielded), `.cont` when
the whole batch was yielded and the loop continues. -/
inductive BatchRes
  | ret (its : List CallerStreamItem)
  | cont (its : List CallerStreamItem)
deriving DecidableEq, Repr

/-- Process the messages of one batch, in order: an `end` field entry
returns immediately (yielding nothing further); a data item is yielded,
and if it is `stream_end`/`stream_fatal_error` the loop returns. -/
def processBatch : List LogEntry → BatchRes
  | [] => .cont []
  | .endMarker :: _ => .ret []
  | .item it :: rest =>
      if isTerminalItem it then .ret [it]
      else
        match processBatch rest with
        | .ret its => .ret (it :: its)
        | .cont its => .cont (it :: its)

def resumeCapError : RiverError :=
  ⟨"Resume safety limit reached", .provider, []⟩

def streamNotFoundError : RiverError :=
  ⟨"Stream not found or has expired", .streamNotFound, []⟩

/-- The `while attempts < max_attempts` loop of `resume_stream`:
each iteration consumes one attempt and reads up to `count=10` entries
past the current position (an empty read sleeps briefly and
continues); the result is the yielded items plus `none` on clean
return or the `provider` error when the cap is exhausted. -/
def resumeLoop (log : List LogEntry) :
    Nat → Nat → List CallerStreamItem →
    List CallerStreamItem × Option RiverError
  | _, 0, acc => (acc, some resumeCapError)
  | pos, fuel + 1, acc =>
    let batch := (log.drop pos).take 10
    if batch.isEmpty then resumeLoop log pos fuel acc
    else
      match processBatch batch with
      | .ret its => (acc ++ its, none)
      | .cont its => resumeLoop log (pos + batch.length) fuel (acc ++ its)

/-- `resume_stream` over a static (already written) log: the
`redis.exists` check fails on an empty/expired log with
`STREAM_NOT_FOUND`; otherwise the blocking read loop runs with
`max_attempts = 1000`, starting from id `0-0`. -/
def resume_stream (log : List LogEntry) :
    List CallerStreamItem × Option RiverError :=
  if log.isEmpty then ([], some streamNotFoundError)
  else resumeLoop log 0 1000 []

/-! ## The caller façade (`StreamCaller.start`, `callers.py`) -/

/-- The abort check in `StreamCaller.start`'s drain loop: for each item
received from the provider the caller first tests
`abort_signal.aborted`; once it is set it yields a single
`{"type": "aborted"}` item and breaks, discarding the in-flight
provider item.  The monotone abort flag is abstracted by the index
`k` of the check at which it is first observed set. -/
def caller_start_live : List CallerStreamItem → Nat → List CallerStreamItem
  | [], _ => []
  | _ :: _, 0 => [.aborted]
  | it :: rest, k + 1 => it :: caller_start_live rest k

/-! ## The FastAPI adapter (`river_adapter_fastapi/server.py`) -/

/-- A stream definition as the caller sees it: the pydantic
`input_model` (validated value or `ValidationError`) and the live item
sequence the provider produces for a validated input. -/
structure StreamModel where
  input_model : String → Option Int
  provider_live : Int → List CallerStreamItem

def validationError : RiverError :=
  ⟨"Input validation failed", .validation, []⟩

/-- Forcing the async generator returned by `StreamCaller.start`:
validation runs first and raises `VALIDATION` before any item is
yielded and before the provider (and hence the runner) is ever invoked;
on success the provider's items follow.  Calling `StreamCaller.start`
in Python executes none of this — the body runs only when the
iterator is first polled. -/
def stream_caller_start (sm : StreamModel) (input_data : String) :
    Except RiverError (List CallerStreamItem) :=
  match sm.input_model input_data with
  | none => .error validationError
  | some v => .ok (sm.provider_live v)

/-- Decimal-digit parse of a string, used to instantiate the external
integer-typed input schema (`TestInput(value: int)`) concretely:
`"5"` validates, `"not_an_int"` does not. -/
def digitsToNat? : List Char → Option Nat
  | [] => none
  | cs =>
    if cs.all (fun c => c.isDigit) then
      some (cs.foldl (fun a c => a * 10 + (c.toNat - 48)) 0)
    else none

def intInputModel (s : String) : Option Int :=
  match digitsToNat? s.data with
  | some n => some (Int.ofNat n)
  | none => none

/-- What `post_handler` returns: an `HTTPException` status raised
before the response is constructed, or a 200 `EventSourceResponse`
whose body is the *unforced* caller generator. -/
inductive AdapterResponse
  | httpError (status : Nat)
  | eventStream (body : Except RiverError (List CallerStreamItem))

/-- `post_handler`: parse the body (`StartStreamRequest`; a malformed
body raises `ValidationError` → 400), look up the stream (unknown key
→ 404), then *call* `stream_caller_start` — which, being an async
generator function, executes nothing — and wrap it in an
`EventSourceResponse` (status 200).  The `except RiverError` clause in
the handler can never see the validation error: it is raised only when
the response body is iterated, after the handler has returned. -/
def post_handler (router : List (String × StreamModel))
    (body : Option (String × String)) : AdapterResponse :=
  match body with
  | none => .httpError 400
  | some (key, input_data) =>
    match router.lookup key with
    | none => .httpError 404
    | some sm => .eventStream (stream_caller_start sm input_data)

/-! ## Lemmas about the resume loop and the harness machine -/

/-- Items the resume loop yields at a terminating entry: none for the
end marker, the item itself for an in-band terminal item. -/
def retItems : LogEntry → List CallerStreamItem
  | .endMarker => []
  | .item it => [it]

def isStartEntry : LogEntry → Bool
  | .item it => isStartItem it
  | .endMarker => false

def isChunkEntry : LogEntry → Bool
  | .item it => isChunkItem it
  | .endMarker => false

/-- The `total_chunks` of the first `stream_end` item of a sequence. -/
def totalChunksReported : List CallerStreamItem → Option Nat
  | [] => none
  | .special (.stream_end n _) :: _ => some n
  | _ :: rest => totalChunksReported rest

theorem entryItems_append (l1 l2 : List LogEntry) :
    entryItems (l1 ++ l2) = entryItems l1 ++ entryItems l2 := by
  induction l1 with
  | nil => rfl
  | cons e rest ih => cases e <;> simp [entryItems, ih]

theorem processBatch_nonterm (l : List LogEntry)
    (h : ∀ e ∈ l, isTermEntry e = false) :
    processBatch l = .cont (entryItems l) := by
  induction l with
  | nil => rfl
  | cons e rest ih =>
      cases e with
      | endMarker =>
          have := h .endMarker (by simp)
          simp [isTermEntry] at this
      | item it =>
          have hit : isTerminalItem it = false := by
            have := h (.item it) (by simp)
            simpa [isTermEntry] using this
          rw [processBatch, ih (fun e he => h e (by simp [he]))]
          simp [hit, entryItems]

theorem processBatch_term (pre : List LogEntry) (e : LogEntry) (more : List LogEntry)
    (hpre : ∀ x ∈ pre, isTermEntry x = false) (he : isTermEntry e = true) :
    processBatch (pre ++ e :: more) = .ret (entryItems pre ++ retItems e) := by
  induction pre with
  | nil =>
      cases e with
      | endMarker => simp [processBatch, entryItems, retItems]
      | item it =>
          have : isTerminalItem it = true := by simpa [isTermEntry] using he
          simp [processBatch, this, entryItems, retItems]
  | cons x rest ih =>
      cases x with
      | endMarker =>
          have := hpre .endMarker (by simp)
          simp [isTermEntry] at this
      | item it =>
          have hit : isTerminalItem it = false := by
            simpa [isTermEntry] using hpre (.item it) (by simp)
          rw [List.cons_append, processBatch,
              ih (fun x hx => hpre x (by simp [hx]))]
          simp [hit, entryItems]

/-- When the entries past `pos` consist of a non-terminal prefix `pre`
reached within the remaining read budget followed by a terminating
entry, the loop yields exactly the prefix items (plus the in-band
terminal item) and returns cleanly. -/
theorem resumeLoop_clean (log : List LogEntry) :
    ∀ (fuel pos : Nat) (acc : List CallerStreamItem)
      (pre : List LogEntry) (e : LogEntry) (more : List LogEntry),
      log.drop pos = pre ++ e :: more →
      (∀ x ∈ pre, isTermEntry x = false) → isTermEntry e = true →
      pre.length < 10 * fuel →
      resumeLoop log pos fuel acc = (acc ++ entryItems pre ++ retItems e, none) := by
  intro fuel
  induction fuel with
  | zero =>
      intro pos acc pre e more hdrop hpre he hlen
      omega
  | succ f ih =>
      intro pos acc pre e more hdrop hpre he hlen
      rw [resumeLoop]
      by_cases hsplit : pre.length < 10
      · have h10 : 10 - pre.length = (10 - pre.length - 1) + 1 := by omega
        have hbatch : (log.drop pos).take 10 =
            pre ++ e :: (more.take (10 - pre.length - 1)) := by
          rw [hdrop, List.take_append_eq_append_take,
              List.take_of_length_le (by omega), h10, List.take_cons]
          omega
        rw [hbatch]
        have hne : (pre ++ e :: (more.take (10 - pre.length - 1))).isEmpty = false := by
          cases pre <;> simp
        rw [hne]
        simp only [Bool.false_eq_true, if_false, ite_false]
        rw [processBatch_term pre e _ hpre he]
        simp [List.append_assoc]
      · have hlenp : 10 ≤ pre.length := by omega
        have hbatch : (log.drop pos).take 10 = pre.take 10 := by
          rw [hdrop, List.take_append_eq_append_take,
              show 10 - pre.length = 0 by omega]
          simp
        rw [hbatch]
        have hlen10 : (pre.take 10).length = 10 := by
          rw [List.length_take]
          omega
        have hne : (pre.take 10).isEmpty = false := by
          cases hp : pre.take 10 with
          | nil => rw [hp] at hlen10; simp at hlen10
          | cons a l => simp
        rw [hne]
        simp only [Bool.false_eq_true, if_false, ite_false]
        rw [processBatch_nonterm (pre.take 10)
          (fun x hx => hpre x (List.take_subset _ _ hx))]
        simp only []
        rw [hlen10]
        have hdrop2 : log.drop (pos + 10) = pre.drop 10 ++ e :: more := by
          rw [← List.drop_drop, hdrop, List.drop_append_eq_append_drop,
              show 10 - pre.length = 0 by omega]
          simp
        rw [ih (pos + 10) (acc ++ entryItems (pre.take 10)) (pre.drop 10) e more
          hdrop2 (fun x hx => hpre x (List.drop_subset _ _ hx))
          he (by rw [List.length_drop]; omega)]
        rw [show entryItems pre =
            entryItems (pre.take 10) ++ entryItems (pre.drop 10) by
          rw [← entryItems_append, List.take_append_drop]]
        simp [List.append_assoc]

/-- With no terminating entry anywhere in the log, the loop exhausts
its attempt budget and reports the `provider` cap error. -/
theorem resumeLoop_noterm (log : List LogEntry)
    (hterm : ∀ e ∈ log, isTermEntry e = false) :
    ∀ (fuel pos : Nat) (acc : List CallerStreamItem),
      (resumeLoop log pos fuel acc).2 = some resumeCapError := by
  intro fuel
  induction fuel with
  | zero => intro pos acc; rfl
  | succ f ih =>
      intro pos acc
      rw [resumeLoop]
      by_cases hb : ((log.drop pos).take 10).isEmpty
      · rw [hb]
        simp only [if_true, ite_true]
        exact ih pos acc
      · rw [Bool.not_eq_true] at hb
        rw [hb]
        simp only [Bool.false_eq_true, if_false, ite_false]
        rw [processBatch_nonterm _
          (fun x hx => hterm x (List.drop_subset _ _ (List.take_subset _ _ hx)))]
        exact ih _ _

/-- When the next `10 * fuel` entries are all copies of one
non-terminal item, the loop burns its whole budget reading them and
reports the cap error, whatever follows. -/
theorem resumeLoop_replicate (c : CallerStreamItem) (hc : isTerminalItem c = false)
    (tail : List LogEntry) (log : List LogEntry) :
    ∀ (fuel pos : Nat) (acc : List CallerStreamItem),
      log.drop pos = List.replicate (10 * fuel) (LogEntry.item c) ++ tail →
      (resumeLoop log pos fuel acc).2 = some resumeCapError := by
  intro fuel
  induction fuel with
  | zero => intro pos acc hdrop; rfl
  | succ f ih =>
      intro pos acc hdrop
      rw [show 10 * (f + 1) = 10 + 10 * f by ring, List.replicate_add,
          List.append_assoc] at hdrop
      rw [resumeLoop]
      have hbatch : (log.drop pos).take 10 = List.replicate 10 (LogEntry.item c) := by
        rw [hdrop]
        exact List.take_left' (by simp)
      rw [hbatch]
      have hne : (List.replicate 10 (LogEntry.item c)).isEmpty = false := by simp
      rw [hne]
      simp only [Bool.false_eq_true, if_false, ite_false]
      rw [processBatch_nonterm _ (by
        intro x hx
        rw [List.eq_of_mem_replicate hx]
        simpa [isTermEntry] using hc)]
      simp only [List.length_replicate]
      apply ih
      have hdd : log.drop (pos + 10) = (log.drop pos).drop 10 := by
        rw [List.drop_drop]
      rw [hdd, hdrop]
      exact List.drop_left' (by simp)

theorem drain_log (s : RunState) : (drain s).log = s.log := by
  unfold drain
  split <;> rfl

/-- The log entries a single redis-helper runner step appends. -/
def redisOpLog : RunnerOp → List LogEntry
  | .append_chunk c => [.item (.chunk c)]
  | .append_error e => [.item (.special (.stream_error e))]
  | .send_fatal_error_and_close e =>
      [.item (.special (.stream_fatal_error e)), .endMarker]
  | .sleep => []

theorem redisOp_log (s : RunState) (op : RunnerOp) :
    (redisOp s op).log = s.log ++ redisOpLog op := by
  cases op <;> simp [redisOp, redisOpLog, drain_log]

theorem redisFinish_log (s : RunState) :
    (redisFinish s).log =
      s.log ++ [.item (.special (.stream_end s.chunk_count 0)), .endMarker] := by
  simp [redisFinish, drain_log]

theorem redisOpLog_no_start (op : RunnerOp) :
    ∀ e ∈ redisOpLog op, isStartEntry e = false := by
  cases op <;> intro e he <;>
    simp only [redisOpLog, List.mem_cons, List.not_mem_nil, or_false,
      List.mem_singleton] at he <;>
    first
      | (rcases he with h | h <;> subst h <;> rfl)
      | (subst he; rfl)

theorem redisFoldl_no_start (ops : List RunnerOp) :
    ∀ s : RunState, (∀ e ∈ s.log, isStartEntry e = false) →
      ∀ e ∈ (ops.foldl redisOp s).log, isStartEntry e = false := by
  induction ops with
  | nil => intro s hs; exact hs
  | cons op rest ih =>
      intro s hs
      rw [List.foldl_cons]
      refine ih (redisOp s op) ?_
      intro e he
      rw [redisOp_log] at he
      rcases List.mem_append.mp he with h | h
      · exact hs e h
      · exact redisOpLog_no_start op e h

/-- `RedisRiverProvider.start_stream` never writes `stream_start` to
the log: it is yielded on the live path only. -/
theorem redisRun_no_start (ops : List RunnerOp) :
    ∀ e ∈ (redisRun ops).log, isStartEntry e = false := by
  intro e he
  unfold redisRun at he
  rw [redisFinish_log] at he
  rcases List.mem_append.mp he with h | h
  · exact redisFoldl_no_start ops initState (by intro e he; simp [initState] at he) e h
  · rcases List.mem_cons.mp h with h2 | h2
    · subst h2; rfl
    · rcases List.mem_singleton.mp h2 with h3
      subst h3
      rfl

/-! ## Concrete instances used by the claim statements -/

/-- The fatal error of the repository's own fatal-path scenario
(`test_redis_provider_fatal_error`). -/
def ferr : RiverError := ⟨"Fatal error", .runnerError, []⟩

/-- The fatal-path runner: `chunk("before-fatal")`,
`send_fatal_error_and_close`, then an attempted `chunk("after-fatal")`
(in Python the runner keeps executing after the fatal call). -/
def ops4 : List RunnerOp :=
  [.append_chunk "before-fatal", .send_fatal_error_and_close ferr,
   .append_chunk "after-fatal"]

/-- A representative well-formed token. -/
def tok0 : ResumptionToken :=
  ⟨strCp "redis", strCp "chat", strCp "storage-1", strCp "run-1"⟩

/-- A token whose base-64 encoding contains `/` (code 47). -/
def tokSlash : ResumptionToken :=
  ⟨strCp "redis", strCp "", strCp "s", strCp "???"⟩

/-- A token whose `provider_id` is a lone high surrogate followed by a
lone low surrogate — a legal Python `str` value. -/
def tsurr : ResumptionToken := ⟨[55357, 56832], strCp "x", strCp "y", strCp "z"⟩

/-- A terminated log whose end marker sits beyond the resume loop's
total read budget of `1000 * 10` entries. -/
def badLog : List LogEntry :=
  List.replicate 10000 (LogEntry.item (.chunk "c")) ++ [.endMarker]

/-- A stream with an integer-typed input schema (the spec's S2
scenario): `"5"` validates, `"not_an_int"` does not. -/
def intStream : StreamModel := ⟨intInputModel, fun _ => [.chunk "ok"]⟩

/-- Does this runner step call `send_fatal_error_and_close`? -/
def isFatalOp : RunnerOp → Bool
  | .send_fatal_error_and_close _ => true
  | _ => false

theorem redisOpLog_noterm (op : RunnerOp) (h : isFatalOp op = false) :
    ∀ e ∈ redisOpLog op, isTermEntry e = false := by
  cases op with
  | append_chunk c =>
      intro e he
      simp only [redisOpLog, List.mem_singleton] at he
      subst he; rfl
  | append_error er =>
      intro e he
      simp only [redisOpLog, List.mem_singleton] at he
      subst he; rfl
  | send_fatal_error_and_close er => simp [isFatalOp] at h
  | sleep => intro e he; simp [redisOpLog] at he

theorem redisOpLog_nonfatal_len (op : RunnerOp) (h : isFatalOp op = false) :
    (redisOpLog op).length ≤ 1 := by
  cases op <;> simp_all [isFatalOp, redisOpLog]

theorem redisFoldl_noterm (ops : List RunnerOp) :
    ∀ s : RunState, ops.all (fun op => !isFatalOp op) = true →
      (∀ x ∈ s.log, isTermEntry x = false) →
      ∀ x ∈ (ops.foldl redisOp s).log, isTermEntry x = false := by
  induction ops with
  | nil => intro s _ hs; exact hs
  | cons op rest ih =>
      intro s hall hs
      rw [List.all_cons, Bool.and_eq_true] at hall
      rw [List.foldl_cons]
      refine ih (redisOp s op) hall.2 ?_
      intro x hx
      rw [redisOp_log] at hx
      rcases List.mem_append.mp hx with h | h
      · exact hs x h
      · exact redisOpLog_noterm op (by simpa using hall.1) x h

theorem redisFoldl_len (ops : List RunnerOp) :
    ∀ s : RunState, ops.all (fun op => !isFatalOp op) = true →
      (ops.foldl redisOp s).log.length ≤ s.log.length + ops.length := by
  induction ops with
  | nil => intro s _; simp
  | cons op rest ih =>
      intro s hall
      rw [List.all_cons, Bool.and_eq_true] at hall
      rw [List.foldl_cons]
      have h1 := ih (redisOp s op) hall.2
      have h2 : (redisOp s op).log.length ≤ s.log.length + 1 := by
        rw [redisOp_log, List.length_append]
        have := redisOpLog_nonfatal_len op (by simpa using hall.1)
        omega
      simp only [List.length_cons]
      omega

/-! ## The claims -/

/-- Claim C1: the spec says `total_chunks` in `stream_end` equals the
number of chunk items of the run.  In both providers `stream_end` is
built from the consumer-side `chunk_count` at the moment the runner
returns, so chunks still enqueued but undrained are not counted: the
default provider reports `0` for a one-chunk run (the counter never
advances before `stream_end` is built), and the redis provider reports
`1` for a two-chunk run.  This contradicts the spec on the code's own
fatal-free happy path. -/
theorem C1_total_chunks_undercounts :
    (totalChunksReported (defaultLive "r" [.append_chunk "a"]) = some 0 ∧
     (defaultLive "r" [.append_chunk "a"]).countP isChunkItem = 1) ∧
    (totalChunksReported (redisRun [.append_chunk "a", .append_chunk "b"]).live =
        some 1 ∧
     (redisLog [.append_chunk "a", .append_chunk "b"]).countP isChunkEntry = 2) := by
  decide

/-- Claim C2 (counterexample): the spec says resume replays the
`stream_start` already persisted in the log.  No `stream_start` is
ever written to the log — it is yielded on the live path only — so the
resumed sequence of a completed one-chunk run is
`[chunk "a", stream_end]`, contains no start item, while the live
sequence of the same run began with the `stream_start` item. -/
theorem C2_no_stream_start_on_resume :
    (resume_stream (redisLog [RunnerOp.append_chunk "a"])).1 =
      [CallerStreamItem.chunk "a", CallerStreamItem.special (.stream_end 0 0)] ∧
    (resume_stream (redisLog [RunnerOp.append_chunk "a"])).1.countP isStartItem = 0 ∧
    (redisLive "s" "r" [RunnerOp.append_chunk "a"]).head? =
      some (redisStartChunk "s" "r") := by
  refine ⟨by decide, by decide, rfl⟩

/-- Claim C2 (amended): for every fatal-free run short enough for the
resume read budget, resume yields exactly the item sequence of the
run's log in log order — but that log never contains a `stream_start`
entry, so the resumer does *not* observe the `stream_start` a live
subscriber saw. -/
theorem C2_resume_replays_log_without_start (ops : List RunnerOp)
    (hnf : ops.all (fun op => !isFatalOp op) = true)
    (hlen : ops.length < 10000) :
    (redisLog ops).countP isStartEntry = 0 ∧
    resume_stream (redisLog ops) = (entryItems (redisLog ops), none) := by
  have hlog : redisLog ops =
      (ops.foldl redisOp initState).log ++
        [.item (.special (.stream_end (ops.foldl redisOp initState).chunk_count 0)),
         .endMarker] := by
    unfold redisLog redisRun
    rw [redisFinish_log]
  constructor
  · rw [List.countP_eq_zero]
    intro e he
    have := redisRun_no_start ops e he
    simp [this]
  · have hterm : ∀ x ∈ (ops.foldl redisOp initState).log, isTermEntry x = false :=
      redisFoldl_noterm ops initState hnf (by intro x hx; simp [initState] at hx)
    have hplen : (ops.foldl redisOp initState).log.length < 10000 := by
      have h1 := redisFoldl_len ops initState hnf
      have h0 : initState.log.length = 0 := rfl
      omega
    unfold resume_stream
    have hne : (redisLog ops).isEmpty = false := by
      rw [hlog]; cases (ops.foldl redisOp initState).log <;> simp
    rw [hne]
    simp only [Bool.false_eq_true, if_false]
    have hclean := resumeLoop_clean (redisLog ops) 1000 0 []
      (ops.foldl redisOp initState).log
      (.item (.special (.stream_end (ops.foldl redisOp initState).chunk_count 0)))
      [.endMarker]
      (by rw [List.drop_zero, hlog]) hterm rfl (by omega)
    rw [hclean, hlog, entryItems_append]
    simp [entryItems, retItems]

/-- Witness for C2's amended theorem at the one-chunk run. -/
theorem C2_resume_replays_log_without_start_witness :
    (redisLog [RunnerOp.append_chunk "a"]).countP isStartEntry = 0 ∧
    resume_stream (redisLog [RunnerOp.append_chunk "a"]) =
      (entryItems (redisLog [RunnerOp.append_chunk "a"]), none) :=
  C2_resume_replays_log_without_start [RunnerOp.append_chunk "a"]
    (by decide) (by decide)

/-- Claim C3: every dual-write helper method that publishes an item to
the live queue performs the log append of that same item strictly
earlier in its effect sequence: wherever `helper_actions` puts
`some it`, a `logAppend it` stands somewhere in the prefix.  A live
subscriber therefore never observes an item not yet offered to the
log. -/
theorem C3_log_append_precedes_queue_put (c : HelperCall)
    (pre post : List HelperAct) (it : CallerStreamItem)
    (h : helper_actions c = pre ++ .queuePut (some it) :: post) :
    HelperAct.logAppend it ∈ pre := by
  cases c <;>
    rcases pre with _ | ⟨a, _ | ⟨b, _ | ⟨d, _ | ⟨f, _ | ⟨g, pre⟩⟩⟩⟩⟩ <;>
    simp_all [helper_actions] <;>
    (obtain ⟨h1, h2, h3⟩ := h; subst h2; exact h1)

/-- Witness for C3 at `append_chunk "a"`. -/
theorem C3_log_append_precedes_queue_put_witness :
    HelperAct.logAppend (CallerStreamItem.chunk "a") ∈
      [HelperAct.logAppend (CallerStreamItem.chunk "a")] :=
  C3_log_append_precedes_queue_put (.append_chunk "a")
    [.logAppend (.chunk "a")] [] (.chunk "a") rfl

/-- Claim C4 (counterexample): the spec says the fatal-path log is
exactly `[stream_start, chunk "before-fatal", stream_fatal_error,
terminal-marker]`.  In the code no `stream_start` is persisted, and the
runner — which Python does not stop — still appends the post-fatal
chunk and the provider epilogue appends a `stream_end` and a second end
marker, all after the first marker: the log has six entries and no
start. -/
theorem C4_log_differs_from_spec :
    redisLog ops4 = [.item (.chunk "before-fatal"),
      .item (.special (.stream_fatal_error ferr)), .endMarker,
      .item (.chunk "after-fatal"),
      .item (.special (.stream_end 1 0)), .endMarker] ∧
    (redisLog ops4).countP isStartEntry = 0 := by
  decide

/-- Claim C4 (amended): although `"after-fatal"` does reach the log, no
subscriber observes it — the live drain loop stops at the `None` the
fatal call enqueued, and a resumer returns at the
`stream_fatal_error` item, the first terminal entry of the log. -/
theorem C4_after_fatal_unobserved :
    (redisRun ops4).live =
      [.chunk "before-fatal", .special (.stream_fatal_error ferr)] ∧
    resume_stream (redisLog ops4) =
      ([.chunk "before-fatal", .special (.stream_fatal_error ferr)], none) := by
  decide

/-- Claim C5 (counterexample): `decode_resumption_token` performs no
field check — `ResumptionToken` is a `TypedDict`, so `"e30="` (the
encoding of `\x7b\x7d`, an empty JSON object missing all four required
fields) decodes successfully instead of failing. -/
theorem C5_missing_fields_accepted :
    decode_resumption_token (strCp "e30=") = some [] := by
  decide

/-- Claim C5 (amended): decoding fails on malformed base-64 (`"a"`) and
on malformed JSON (`"ew=="`, the encoding of a bare `\x7b`), and
succeeds on the well-formed encoding of any complete token — but a
missing field is not an error (see the counterexample). -/
theorem C5_decode_failure_and_success_modes (t : ResumptionToken) (h : tokenWf t) :
    decode_resumption_token (strCp "a") = none ∧
    decode_resumption_token (strCp "ew==") = none ∧
    decode_resumption_token (encode_resumption_token t) = some (tokenPairs t) :=
  ⟨by decide, by decide, decode_encode_token t h⟩

/-- Witness for C5's amended theorem at `tok0`. -/
theorem C5_decode_failure_and_success_modes_witness :
    decode_resumption_token (strCp "a") = none ∧
    decode_resumption_token (strCp "ew==") = none ∧
    decode_resumption_token (encode_resumption_token tok0) = some (tokenPairs tok0) :=
  C5_decode_failure_and_success_modes tok0 (by decide)

/-- Claim C6 (counterexample): `helpers.py` calls `base64.b64encode`,
not `urlsafe_b64encode`, so the output can contain `/` (code 47):
`tokSlash`'s encoding does. -/
theorem C6_slash_in_encoded_token : 47 ∈ encode_resumption_token tokSlash := by
  decide

/-- Claim C6 (amended): the encoder is *standard* base-64 of the UTF-8
JSON of the four fields: every output character is from the standard
alphabet (`A`–`Z`, `a`–`z`, `0`–`9`, `+`, `/`) or the pad `=` — it is
not the URL-safe variant the spec names. -/
theorem C6_standard_base64_alphabet (t : ResumptionToken) :
    (encode_resumption_token t).all (fun c => isB64Char c || c == 61) = true := by
  rw [List.all_eq_true]
  intro c hc
  unfold encode_resumption_token at hc
  rw [utf8Encode_ascii _ (tokenJson_ascii t)] at hc
  rcases b64encode_chars _ (fun b hb => by have := tokenJson_ascii t b hb; omega)
    c hc with h | h
  · simp [h]
  · simp [h]

/-- Claim C7 (counterexample): the token whose `provider_id` is the
two-code-point string U+D83D U+DE00 (adjacent lone surrogates, a legal
Python `str`) does not round-trip bit-identically: CPython's
`json.loads` recombines the escaped pair into the single code point
U+1F600 on decode. -/
theorem C7_surrogate_pair_not_bit_identical :
    decode_resumption_token (encode_resumption_token tsurr) ≠
      some (tokenPairs tsurr) := by
  show decode_resumption_token (encode_resumption_token
      ⟨[55357, 56832], strCp "x", strCp "y", strCp "z"⟩) ≠ some (tokenPairs tsurr)
  rw [decode_encode_surr]
  decide

/-- Claim C7 (amended): `decode(encode(t))` recovers `t`'s four-field
dict exactly for every token free of adjacent lone-surrogate pairs in
its fields (in particular for all well-formed Unicode field values). -/
theorem C7_roundtrip_for_wellformed_tokens (t : ResumptionToken) (h : tokenWf t) :
    decode_resumption_token (encode_resumption_token t) = some (tokenPairs t) :=
  decode_encode_token t h

/-- Witness for C7's amended theorem at `tok0`. -/
theorem C7_roundtrip_for_wellformed_tokens_witness :
    decode_resumption_token (encode_resumption_token tok0) = some (tokenPairs tok0) :=
  C7_roundtrip_for_wellformed_tokens tok0 (by decide)

/-- Claim C8: the spec expects a validation failure to surface
synchronously and the adapter to map it to HTTP 400.  `StreamCaller.start`
is an async generator function, so calling it executes none of its
body; `post_handler` wraps the unforced generator in a 200
`EventSourceResponse`, and the validation error is raised only when the
response body is iterated — the handler's 400 path is reserved for a
malformed request body, and the 404 path for an unknown stream key.
(The repository's own `test_fastapi_validation_error` asserts 400.) -/
theorem C8_validation_error_not_synchronous :
    post_handler [("s", intStream)] (some ("s", "not_an_int")) =
      .eventStream (.error validationError) ∧
    stream_caller_start intStream "not_an_int" = .error validationError ∧
    post_handler [("s", intStream)] none = .httpError 400 ∧
    post_handler [("s", intStream)] (some ("nope", "5")) = .httpError 404 :=
  ⟨rfl, rfl, rfl, rfl⟩

/-- Claim C9 (counterexample): the cap does not only guard unterminated
logs — a *terminated* log whose end marker lies past the
`1000 * 10`-entry read budget also makes resume fail with the
`provider` cap error instead of replaying to the terminal. -/
theorem C9_cap_error_on_long_terminated_log :
    badLog.countP isTermEntry = 1 ∧
    (resume_stream badLog).2 = some resumeCapError := by
  constructor
  · rw [badLog, List.countP_append]
    have h1 : (List.replicate 10000 (LogEntry.item (.chunk "c"))).countP
        isTermEntry = 0 := by
      rw [List.countP_eq_zero]
      intro a ha
      rw [List.eq_of_mem_replicate ha]
      decide
    rw [h1]
    rfl
  · unfold resume_stream
    have hne : badLog.isEmpty = false := by rw [badLog]; rfl
    rw [hne]
    simp only [Bool.false_eq_true, if_false]
    exact resumeLoop_replicate (.chunk "c") rfl [LogEntry.endMarker] badLog 1000 0 []
      (by rw [List.drop_zero, badLog])

/-- Claim C9 (amended): resume always terminates; whenever the first
terminating entry of the log is reached within the loop's total read
budget (fewer than `1000 * 10` entries precede it), resume returns
cleanly with exactly the preceding items (plus the in-band terminal
item); a log whose terminal lies beyond the budget — terminated or not
— ends in the `provider` cap error (see the counterexample). -/
theorem C9_resume_bounded_termination (log pre : List LogEntry) (e : LogEntry)
    (more : List LogEntry) (hlog : log = pre ++ e :: more)
    (hpre : ∀ x ∈ pre, isTermEntry x = false) (he : isTermEntry e = true)
    (hlen : pre.length < 10000) :
    resume_stream log = (entryItems pre ++ retItems e, none) := by
  subst hlog
  unfold resume_stream
  have hne : (pre ++ e :: more).isEmpty = false := by cases pre <;> simp
  rw [hne]
  simp only [Bool.false_eq_true, if_false]
  simpa using resumeLoop_clean (pre ++ e :: more) 1000 0 [] pre e more
    (by rw [List.drop_zero]) hpre he (by omega)

/-- Witness for C9's amended theorem at a two-entry log. -/
theorem C9_resume_bounded_termination_witness :
    resume_stream [LogEntry.item (.chunk "a"), LogEntry.endMarker] =
      (entryItems [LogEntry.item (.chunk "a")] ++ retItems LogEntry.endMarker,
       none) :=
  C9_resume_bounded_termination
    [LogEntry.item (.chunk "a"), LogEntry.endMarker]
    [LogEntry.item (.chunk "a")] LogEntry.endMarker [] rfl
    (by decide) rfl (by decide)

/-- Claim C10: once the caller's drain loop observes the abort signal
at its per-item check (index `k`, with a provider item then in
flight), it yields exactly the `k` items already passed through, then
the single `aborted` item, and nothing further — the in-flight item
`items[k]` and everything after it are discarded. -/
theorem C10_abort_single_item_and_discard (items : List CallerStreamItem) (k : Nat)
    (hk : k < items.length) :
    caller_start_live items k = items.take k ++ [.aborted] := by
  induction items generalizing k with
  | nil => simp at hk
  | cons it rest ih =>
      cases k with
      | zero => rfl
      | succ k =>
          rw [caller_start_live,
            ih k (by simp only [List.length_cons] at hk; omega)]
          simp [List.take_succ_cons]

/-- Witness for C10 at a three-item provider sequence aborted at the
third check. -/
theorem C10_abort_single_item_and_discard_witness :
    caller_start_live [CallerStreamItem.chunk "a", CallerStreamItem.chunk "b",
        CallerStreamItem.chunk "c"] 2 =
      [CallerStreamItem.chunk "a", CallerStreamItem.chunk "b",
        CallerStreamItem.chunk "c"].take 2 ++ [CallerStreamItem.aborted] :=
  C10_abort_single_item_and_discard
    [CallerStreamItem.chunk "a", CallerStreamItem.chunk "b",
     CallerStreamItem.chunk "c"] 2 (by decide)
